import Mathlib

set_option maxRecDepth 100000

/-!
Verification development for the `dataAgents` lidar pipeline (`src/server.py`).

The file shallowly embeds the four core subsystems of the server:

* the compact packet decoder `parse_compact` (bytes → 3D points),
* the frame assembler `FrameProtocol.datagram_received`,
* the spatial filter and clusterer driver `process_frame`,
* the tracker `assign_stable_ids` / `get_next_cluster_id`.

Modelling conventions:

* A byte buffer is a `List ℕ` (entries are byte values `< 256` in every
  concrete input; the readers below use the same little/big-endian
  arithmetic as Python's `struct.unpack_from`).
* Python float values are modelled as exact fractions (`Frac` below, an
  integer numerator with a natural denominator, evaluated in `ℚ` by
  `Frac.toRat`).  `Frac` exists because this development needs kernel-
  computable arithmetic for concrete witnesses, and the library `ℚ`
  operations are `@[irreducible]`; the `Frac.toRat_*` lemmas certify that
  every `Frac` operation agrees with the corresponding `ℚ` operation.
* The trigonometric coordinates `x, y, z` of a decoded point are
  real-valued functions of those fractions (`ptX`, `ptY`, `ptZ`).
* `struct.unpack_from` and byte indexing raise `struct.error`/`IndexError`
  when the access exceeds the buffer; the embedding mirrors each such
  access with an explicit bound check and an error result.
-/

/-- An exact fraction: `num / den`.  All operations below keep `den`
positive when the operands have positive `den`; no gcd normalisation is
performed, so the kernel can evaluate every operation.  Python float
arithmetic of the source is modelled by these exact fractions. -/
structure Frac where
  num : ℤ
  den : ℕ
deriving Repr, DecidableEq

instance (n : ℕ) : OfNat Frac n := ⟨⟨n, 1⟩⟩

/-- Value of a fraction in `ℚ` (junk value `0` when `den = 0`, which no
operation produces from positive-denominator operands). -/
def Frac.toRat (a : Frac) : ℚ := (a.num : ℚ) / (a.den : ℚ)

/-- Negation. -/
def Frac.neg (a : Frac) : Frac := ⟨-a.num, a.den⟩

/-- Addition: `a/b + c/d = (a*d + c*b) / (b*d)`. -/
def Frac.add (a b : Frac) : Frac := ⟨a.num * b.den + b.num * a.den, a.den * b.den⟩

/-- Subtraction. -/
def Frac.sub (a b : Frac) : Frac := ⟨a.num * b.den - b.num * a.den, a.den * b.den⟩

/-- Multiplication. -/
def Frac.mul (a b : Frac) : Frac := ⟨a.num * b.num, a.den * b.den⟩

/-- Division; the divisor's sign is moved into the numerator so that the
denominator stays a natural number.  Division by a zero fraction yields
the junk value `0/1` (the source raises `ZeroDivisionError` there; no
claim exercises that case). -/
def Frac.div (a b : Frac) : Frac :=
  if b.num = 0 then ⟨0, 1⟩ else ⟨a.num * b.den * b.num.sign, a.den * b.num.natAbs⟩

/-- Comparison `a ≤ b` by cross-multiplication (correct for positive
denominators, see `Frac.leB_iff`). -/
def Frac.leB (a b : Frac) : Bool := a.num * b.den ≤ b.num * a.den

/-- Comparison `a < b` by cross-multiplication. -/
def Frac.ltB (a b : Frac) : Bool := a.num * b.den < b.num * a.den

/-- Semantic equality test by cross-multiplication (models float `==`). -/
def Frac.eqvB (a b : Frac) : Bool := a.num * b.den = b.num * a.den

/-- Little-endian value of a byte list: `int.from_bytes(bs, "little")`. -/
def leVal (bs : List ℕ) : ℕ := bs.foldr (fun b acc => b + 256 * acc) 0

/-- Little-endian u32 read at `off` (the value of
`struct.unpack_from("<I", m, off)`; callers perform the bound check that
the Python call enforces by raising `struct.error`). -/
def u32At (m : List ℕ) (off : ℕ) : ℕ := leVal ((m.drop off).take 4)

/-- Big-endian u32 read at `off` (`struct.unpack_from(">I", m, off)`). -/
def beValAt (m : List ℕ) (off : ℕ) : ℕ :=
  ((m.drop off).take 4).foldl (fun acc b => acc * 256 + b) 0

/-- IEEE-754 binary32 value of a 32-bit pattern, as an exact fraction.
Sign, exponent and mantissa are decoded exactly as in the hardware
format; for exponent 255 (infinities and NaNs) the normal-number formula
is extended, since `Frac` has no infinities (no claim depends on such
inputs).  Normal: `(-1)^s * (2^23 + mant) * 2^e / 2^150`; subnormal:
`(-1)^s * 2 * mant / 2^150` (both equal the usual
`(-1)^s * (1 + mant/2^23) * 2^(e-127)` form). -/
def f32OfBits (bits : ℕ) : Frac :=
  let s := bits / 2 ^ 31 % 2
  let e := bits / 2 ^ 23 % 256
  let mant := bits % 2 ^ 23
  let mag : Frac :=
    if e = 0 then ⟨(2 * mant : ℕ), 2 ^ 150⟩
    else ⟨((2 ^ 23 + mant) * 2 ^ e : ℕ), 2 ^ 150⟩
  if s = 1 then mag.neg else mag

/-- Little-endian f32 read at `off`: `struct.unpack_from("<f", m, off)`. -/
def f32At (m : List ℕ) (off : ℕ) : Frac := f32OfBits (u32At m off)

/-- Helper building a little-endian u32 byte encoding (used only to
construct concrete test packets). -/
def u32le (n : ℕ) : List ℕ := [n % 256, n / 256 % 256, n / 2 ^ 16 % 256, n / 2 ^ 24 % 256]

/-- Helper building a little-endian u16 byte encoding. -/
def u16le (n : ℕ) : List ℕ := [n % 256, n / 256 % 256]

/-- Byte encoding of the f32 `1.0` (bit pattern `0x3F800000`, little-endian). -/
def f32one : List ℕ := [0, 0, 128, 63]

/-- Byte encoding of the f32 `-1.0` (bit pattern `0xBF800000`, little-endian). -/
def f32negOne : List ℕ := [0, 0, 128, 191]

/-- Byte encoding of the f32 `0.0`. -/
def f32zero : List ℕ := [0, 0, 0, 0]

/-- A decoded point, as produced inside `parse_compact`
(server.py lines 157-172).  The source stores a dict with keys
x, y, z, theta; `x`, `y`, `z` are real-valued trigonometric functions of
the per-point data kept in this structure (`d = raw * scaling / 1000`,
elevation `phi = phi[l]`, azimuth `theta`); `ptX/ptY/ptZ` below define
the emitted coordinates, so the decoder itself stays executable. -/
structure Pt where
  raw : ℕ
  scaling : Frac
  phi : Frac
  theta : Frac
deriving Repr, DecidableEq

/-- Derived distance of a point: `d = raw * scaling / 1000.0` (server.py:164). -/
def dval (p : Pt) : Frac := (Frac.mul ⟨(p.raw : ℤ), 1⟩ p.scaling).div ⟨1000, 1⟩

/-- Emitted x coordinate: `d*math.cos(phi)*math.cos(theta)` (server.py:168). -/
noncomputable def ptX (p : Pt) : ℝ :=

  ((dval p).toRat : ℝ) * Real.cos ((p.phi.toRat : ℝ)) * Real.cos ((p.theta.toRat : ℝ))

/-- Emitted y coordinate: `d*math.cos(phi)*math.sin(theta)` (server.py:169). -/
noncomputable def ptY (p : Pt) : ℝ :=

  ((dval p).toRat : ℝ) * Real.cos ((p.phi.toRat : ℝ)) * Real.sin ((p.theta.toRat : ℝ))

/-- Emitted z coordinate: `d*math.sin(phi)` (server.py:170). -/
noncomputable def ptZ (p : Pt) : ℝ :=

  ((dval p).toRat : ℝ) * Real.sin ((p.phi.toRat : ℝ))

/-- Result of `parse_compact` (server.py:134-175).  `fail` models an
exception escaping the function (`struct.error` from `unpack_from` or
`IndexError` from byte indexing); `retNone` models `return None`;
`ok frame pts` models `return (frame_number, all_pts)`. -/
inductive ParseResult where
  | fail : ParseResult
  | retNone : ParseResult
  | ok : ℕ → List Pt → ParseResult
deriving Repr, DecidableEq

/-- Data extracted from one module slice by the body of the decoder's
`while` loop: the frame number (line 143), the declared size of the next
module (line 149) and the emitted points (lines 157-172). -/
structure ModuleData where
  frame : ℕ
  nextModule : ℕ
  pts : List Pt
deriving Repr, DecidableEq

/-- Bound checks for all raising accesses of one module-loop iteration
(server.py:142-151), in source order, where `L = num_layers` is the u32
at module offset 20:

* `32 ≤ len` — `struct.unpack_from('<III', m, 20)` (line 144);
* the three angle-array conditions — the `unpack_from('<f', m, mo+4*i)`
  comprehensions for `phi`, `theta_start`, `theta_stop` (lines 146-148),
  whose last read ends at `32+20L`, `32+24L`, `32+28L` respectively
  (`mo` starts at `32 + 16*num_layers`, line 145; an empty comprehension
  performs no read);
* `32+28L+8 ≤ len` — `unpack_from('<fI', m, mo)` (line 149);
* `42+28L < len` — the byte reads `m[mo], m[mo+1]` at offsets `41+28L`
  and `42+28L` (line 151).

The module body raises iff one of these fails; the embedding combines
them into one conjunction since all raising outcomes are identified. -/
def moduleReadsOkB (m : List ℕ) : Bool :=
  let L := u32At m 20
  decide (32 ≤ m.length) &&
  decide (0 < L → 32 + 20 * L ≤ m.length) &&
  decide (0 < L → 32 + 24 * L ≤ m.length) &&
  decide (0 < L → 32 + 28 * L ≤ m.length) &&
  decide (32 + 28 * L + 8 ≤ m.length) &&
  decide (42 + 28 * L < m.length)

/-- One iteration of the module loop of `parse_compact`
(server.py:142-172), on the module slice `m = buffer[offset:offset+module_size]`.
Returns `none` when the Python code would raise (see `moduleReadsOkB`).
The angle values are read at the same offsets the source comprehensions
use (`phi[l]` at `32+16L+4l`, `theta_start[l]` at `32+20L+4l`,
`theta_stop[l]` at `32+24L+4l`); reading them at point-construction time
is equivalent because `moduleReadsOkB` ensures the reads are in bounds.
The per-echo guard and the `raw` read mirror lines 162-163 exactly: an
out-of-range echo sample is skipped (`continue`), and `raw = 0` without
any read when `echo_size == 0`. -/
def parseModule (m : List ℕ) : Option ModuleData :=
  if moduleReadsOkB m then
    let frame := leVal ((m.drop 8).take 8)
    let L := u32At m 20
    let B := u32At m 24
    let E := u32At m 28
    let scaling := f32At m (32 + 28 * L)
    let nextModule := u32At m (32 + 28 * L + 4)
    let dataEchos := (m.drop (41 + 28 * L)).headD 0
    let dataBeams := (m.drop (42 + 28 * L)).headD 0
    let dataOffset := 44 + 28 * L
    let echoSize := (if dataEchos % 2 = 1 then 2 else 0) + (if dataEchos / 2 % 2 = 1 then 2 else 0)
    let beamSize := echoSize * E +
      (if dataBeams % 2 = 1 then 1 else 0) + (if dataBeams / 2 % 2 = 1 then 2 else 0)
    let pts := (List.range B).flatMap fun b =>
      (List.range L).flatMap fun l =>
        (List.range E).filterMap fun ec =>
          let idx := dataOffset + (b * L + l) * beamSize + ec * echoSize
          if 0 < echoSize ∧ m.length < idx + echoSize then Option.none
          else
            let raw := if 0 < echoSize then leVal ((m.drop idx).take 2) else 0
            let tsl := f32At m (32 + 20 * L + 4 * l)
            let tpl := f32At m (32 + 24 * L + 4 * l)
            let th := tsl.add ((Frac.mul ⟨(b : ℤ), 1⟩ ((tpl.sub tsl).div ⟨(max 1 (B - 1) : ℕ), 1⟩)))
            some ⟨raw, scaling, f32At m (32 + 16 * L + 4 * l), th⟩
    some ⟨frame, nextModule, pts⟩
  else Option.none

/-- Terminal statement of `parse_compact` (server.py:175):
`return (frame_number, all_pts) if frame_number is not None else None`. -/
def endResult : Option ℕ → List Pt → ParseResult
  | some f, acc => .ok f acc
  | Option.none, _ => .retNone

/-- The module loop of `parse_compact` (server.py:141-174), fuelled.
The loop condition is `module_size > 0 and offset + module_size <= len(buffer)`;
each iteration advances `offset` by `module_size ≥ 1`, so
`buffer.length + 1` fuel always suffices (`parseLoopF_fuel_irrel`). -/
def parseLoopF : ℕ → List ℕ → ℕ → ℕ → List Pt → Option ℕ → ParseResult
  | 0, _, _, _, acc, fr => endResult fr acc
  | fuel + 1, buffer, offset, size, acc, fr =>
    if 0 < size ∧ offset + size ≤ buffer.length then
      match parseModule ((buffer.drop offset).take size) with
      | Option.none => .fail
      | some md => parseLoopF fuel buffer (offset + size) md.nextModule (acc ++ md.pts) (some md.frame)
    else endResult fr acc

/-- Header validation of `parse_compact` (server.py:135): length at least
32, big-endian u32 at 0 equal to `0x02020202`, little-endian u32 at 4
equal to 1 (short-circuit order as in the source). -/
def headerOkB (buffer : List ℕ) : Bool :=
  decide (32 ≤ buffer.length) && (beValAt buffer 0 == 0x02020202) && (u32At buffer 4 == 1)

/-- The decoder `parse_compact` (server.py:134-175).  The first module
size is the little-endian u32 at offset 28 (line 138); the loop starts
at offset 32 (line 137) with `all_pts = []` and `frame_number = None`. -/
def parseCompact (buffer : List ℕ) : ParseResult :=
  if headerOkB buffer then
    parseLoopF (buffer.length + 1) buffer 32 (u32At buffer 28) [] Option.none
  else .retNone

/-- Number of layers declared by the first module of a packet
(u32 at module offset 20, i.e. buffer offset 52). -/
def firstModuleLayers (buffer : List ℕ) : ℕ := u32At buffer (32 + 20)

/-- The `next_module` field declared by the first module of a packet
(u32 at module offset `36 + 28*num_layers`, server.py:149).  A first
module with `next_module = 0` is a last module in the sense of the spec
(`last_module = (next_module_size == 0)`). -/
def firstModuleNextSize (buffer : List ℕ) : ℕ :=
  u32At buffer (32 + 36 + 28 * firstModuleLayers buffer)

/-- Fuelled well-sizedness predicate for the chain of modules of a
packet: every module reached by the loop is large enough for all of its
header, angle-array and metadata reads (`module_size ≥ 43 + 28*num_layers`,
the exact bound under which `parseModule` cannot raise). -/
def modChainOkB : ℕ → List ℕ → ℕ → ℕ → Bool
  | 0, _, _, _ => true
  | fuel + 1, buffer, offset, size =>
    if 0 < size ∧ offset + size ≤ buffer.length then
      let m := (buffer.drop offset).take size
      let L := u32At m 20
      decide (43 + 28 * L ≤ size) && modChainOkB fuel buffer (offset + size) (u32At m (32 + 28 * L + 4))
    else true

/-- A 3D coordinate triple (cluster centroids, velocities). -/
def V3 : Type := Frac × Frac × Frac

instance : DecidableEq V3 := by unfold V3; infer_instance

instance : Repr V3 := by unfold V3; infer_instance

/-- Squared Euclidean distance between two coordinate triples.  The
source compares `math.dist`/`math.sqrt` (true distances) against
constant thresholds; the embedding compares squared distances against
squared thresholds, which is equivalent for nonnegative bounds. -/
def sqDist (a b : V3) : Frac :=
  let dx := a.1.sub b.1
  let dy := a.2.1.sub b.2.1
  let dz := a.2.2.sub b.2.2
  ((dx.mul dx).add (dy.mul dy)).add (dz.mul dz)

/-- The origin triple. -/
def v3zero : V3 := ((0 : Frac), (0 : Frac), (0 : Frac))

/-- Configuration values of server.py:26-36 that the claims exercise
(`config.json` is not part of the sources, so these are parameters).
The DBSCAN parameters and the cone parameters are consumed only by the
clustering/cone oracles (see `processFrame`) and are not listed here. -/
structure Config where
  MAX_MATCH_DIST : Frac
  FRAME_TIME_GAP_SEC : Frac
  MAX_CLUSTER_ID : ℕ
  USE_CONE_SHAPE : Bool
  CLUSTER_RADIUS : Frac
deriving Repr, DecidableEq

/-- Persistent tracker state (the module-level globals of server.py:53-56).
Python dicts are modelled as association lists in insertion order
(`dictInsert` replaces in place, like `d[k] = v`); the Python set
`reusable_ids` is modelled as a duplicate-free list. -/
structure TrackerState where
  nextClusterId : ℕ
  prevCentroids : List (ℕ × V3)
  prevSpeeds : List (ℕ × V3)
  reusableIds : List ℕ
deriving Repr, DecidableEq

/-- Keys of an association list, in insertion order
(`list(d.keys())` of a Python dict). -/
def dictKeys {α : Type} (d : List (ℕ × α)) : List ℕ := d.map Prod.fst

/-- Lookup in an association list (`d[k]` / `k in d`). -/
def dictLookup {α : Type} (d : List (ℕ × α)) (k : ℕ) : Option α :=
  (d.find? (fun e => e.1 == k)).map Prod.snd

/-- Python dict assignment `d[k] = v`: replace in place if the key
exists, else append. -/
def dictInsert {α : Type} (d : List (ℕ × α)) (k : ℕ) (v : α) : List (ℕ × α) :=
  if d.any (fun e => e.1 == k) then d.map (fun e => if e.1 == k then (k, v) else e)
  else d ++ [(k, v)]

/-- Minimum of a nonempty list (`min(reusable_ids)`; the `[]` case is
unreachable behind the nonemptiness test of server.py:60). -/
def listMin : List ℕ → ℕ
  | [] => 0
  | x :: xs => xs.foldl min x

/-- Set difference `a - b` keeping the order of `a`
(`set(prev) - set(new)` of server.py:124, on duplicate-free lists). -/
def setDiff (a b : List ℕ) : List ℕ := a.filter (fun x => ¬ b.contains x)

/-- The id allocator `get_next_cluster_id` (server.py:58-67):

1. if `reusable_ids` is nonempty, return its minimum (the source does
   NOT remove it from the set);
2. else return the first `cid < MAX_CLUSTER_ID` not in `prev_centroids`;
3. else return `next_cluster_id` and advance it modulo `MAX_CLUSTER_ID`.

Returns the id together with the updated `next_cluster_id`.  With
`MAX_CLUSTER_ID = 0` the source raises `ZeroDivisionError` in branch 3
while `Nat.mod 0` is the identity; no claim exercises that corner. -/
def getNextClusterId (maxId : ℕ) (reusable prevKeys : List ℕ) (nextId : ℕ) : ℕ × ℕ :=
  if reusable ≠ [] then (listMin reusable, nextId)
  else
    match (List.range maxId).find? (fun cid => ¬ prevKeys.contains cid) with
    | some cid => (cid, nextId)
    | Option.none => (nextId, (nextId + 1) % maxId)

/-- Per-cluster record of `cluster_info` (server.py:115-122).  The
source additionally stores `speed` (the real square root of the squared
velocity norm) and `bbox` (componentwise min/max of the member points'
real coordinates); both are real-valued quantities that no claim
references, so they are omitted from the executable record. -/
structure Info where
  centroid : V3
  velocity : V3
  moved : Bool
  count : ℕ
deriving Repr, DecidableEq

/-- A raw cluster handed to the tracker (server.py:198): member points
(tagged with their identity index in the frame, mirroring Python object
identity) and the centroid. -/
structure RawCluster where
  pts : List (ℕ × Pt)
  centroid : V3
deriving Repr, DecidableEq

/-- Model of `scipy.spatial.KDTree.query(c, distance_upper_bound=r)`
over the list of previous centroids: the index of the nearest point
whose distance is within the bound (ties broken towards the lower
index), or `coords.length` when no point is within the bound (scipy
reports missing neighbours with index `n`). -/
def queryNearest (coords : List V3) (q : V3) (bound : Frac) : ℕ :=
  let best := coords.enum.foldl (fun acc ic =>
    let d2 := sqDist ic.2 q
    if Frac.leB d2 (bound.mul bound) then
      match acc with
      | Option.none => some (ic.1, d2)
      | some jd => if Frac.ltB d2 jd.2 then some (ic.1, d2) else some jd
    else acc) Option.none
  match best with
  | some jd => jd.1
  | Option.none => coords.length

/-- Loop accumulator for the per-cluster loop of `assign_stable_ids`
(server.py:81-122): `used` is `used_ids`, `newCentroids` is
`new_centroids`, `assignments` lists the assigned id of each cluster in
processing order (the dict `assignments[i] = cid`), `perCluster` records
`(cid, info)` per cluster in processing order (`cluster_info[cid] = ...`
before dict overwriting — the broadcast `cluster_info` is its dict
fold-in), `alerts` records the ids of the collision alerts of
server.py:112-114, `nextId` is the evolving `next_cluster_id` and
`speeds` is the evolving `prev_speeds` dict (which the source updates in
place and never clears). -/
structure AsgAcc where
  used : List ℕ
  newCentroids : List (ℕ × V3)
  assignments : List ℕ
  perCluster : List (ℕ × Info)
  alerts : List ℕ
  nextId : ℕ
  speeds : List (ℕ × V3)
deriving Repr, DecidableEq

/-- One iteration of the cluster loop of `assign_stable_ids`
(server.py:81-122).  `prev` is the (loop-invariant) `prev_centroids`
dict and `reusable` the (loop-invariant) `reusable_ids` set; both are
only mutated after the loop (server.py:123-125). -/
def stepCluster (cfg : Config) (prev : List (ℕ × V3)) (reusable : List ℕ)
    (acc : AsgAcc) (rc : RawCluster) : AsgAcc :=
  let c := rc.centroid
  let prevIds := dictKeys prev
  let matched : Option ℕ :=
    if prev ≠ [] then
      let idx := queryNearest (prev.map Prod.snd) c cfg.MAX_MATCH_DIST
      if idx < prevIds.length then
        let mid := prevIds.getD idx 0
        if acc.used.contains mid then Option.none else some mid
      else Option.none
    else Option.none
  let cidNext : ℕ × List ℕ × ℕ :=
    match matched with
    | some mid => (mid, acc.used ++ [mid], acc.nextId)
    | Option.none =>
      let r := getNextClusterId cfg.MAX_CLUSTER_ID reusable prevIds acc.nextId
      (r.1, acc.used, r.2)
  let cid := cidNext.1
  let vMoved : V3 × Bool :=
    match dictLookup prev cid with
    | some p =>
      (((c.1.sub p.1).div cfg.FRAME_TIME_GAP_SEC,
        (c.2.1.sub p.2.1).div cfg.FRAME_TIME_GAP_SEC,
        (c.2.2.sub p.2.2).div cfg.FRAME_TIME_GAP_SEC),
       Frac.ltB ⟨1, 100⟩ (sqDist c p))
    | Option.none => (v3zero, true)
  let info : Info := ⟨c, vMoved.1, vMoved.2, rc.pts.length⟩
  { used := cidNext.2.1
    newCentroids := dictInsert acc.newCentroids cid c
    assignments := acc.assignments ++ [cid]
    perCluster := acc.perCluster ++ [(cid, info)]
    alerts := if Frac.ltB (sqDist c v3zero) ⟨1, 4⟩ then acc.alerts ++ [cid] else acc.alerts
    nextId := cidNext.2.2
    speeds := dictInsert acc.speeds cid vMoved.1 }

/-- Aggregate result of `assign_stable_ids` (server.py:69-132). -/
structure AsgOut where
  assignments : List ℕ
  perCluster : List (ℕ × Info)
  clusterInfo : List (ℕ × Info)
  alerts : List ℕ
  points : List ((ℕ × Pt) × Option ℤ)
  state : TrackerState
deriving Repr, DecidableEq

/-- The tracker `assign_stable_ids` (server.py:69-132).  After the
cluster loop: `reusable_ids` is recomputed as
`set(prev_centroids) - set(new_centroids)` (lines 123-124),
`prev_centroids` becomes `new_centroids` (line 125), and the stable
output points are the member points of each cluster tagged with the
cluster's assigned id (lines 126-131; `p['cluster_id'] = cid`).
`clusterInfo` is the dict fold of the per-cluster records (later
clusters with the same id overwrite earlier ones, as in the source). -/
def assignStableIds (cfg : Config) (st : TrackerState) (clusters : List RawCluster) : AsgOut :=
  let acc0 : AsgAcc := ⟨[], [], [], [], [], st.nextClusterId, st.prevSpeeds⟩
  let acc := clusters.foldl (stepCluster cfg st.prevCentroids st.reusableIds) acc0
  let newPrev := acc.newCentroids
  let reusable2 := setDiff (dictKeys st.prevCentroids) (dictKeys newPrev)
  { assignments := acc.assignments
    perCluster := acc.perCluster
    clusterInfo := acc.perCluster.foldl (fun d e => dictInsert d e.1 e.2) []
    alerts := acc.alerts
    points := (clusters.zip acc.assignments).flatMap
      (fun rca => rca.1.pts.map (fun q => (q, some ((rca.2 : ℤ)))))
    state := ⟨acc.nextId, newPrev, acc.speeds, reusable2⟩ }

/-- The initial tracker state (server.py:53-56). -/
def initTracker : TrackerState := ⟨0, [], [], []⟩

/-- The zero-origin drop of `process_frame` (server.py:178):
`not (p['x'] == 0 and p['y'] == 0 and p['z'] == 0)`.  By
`pt_zero_iff`, the float test is equivalent to `d == 0`; `Frac.eqvB`
with `0` is that test on the exact fraction (`Frac.eqvB_iff`). -/
def keptOf (pts : List (ℕ × Pt)) : List (ℕ × Pt) :=
  pts.filter (fun q => !(Frac.eqvB (dval q.2) 0))

/-- The sphere region test of `process_frame` (server.py:184):
`math.sqrt(x²+y²+z²) <= CLUSTER_RADIUS`.  Since `sqrt(x²+y²+z²) = |d|`
(`pt_sphere_identity`), the test equals `0 ≤ R ∧ d² ≤ R²`, which is the
exact-fraction form used here (see `sphereInB_faithful`). -/
def sphereInB (cfg : Config) (p : Pt) : Bool :=
  Frac.leB 0 cfg.CLUSTER_RADIUS &&
  Frac.leB ((dval p).mul (dval p)) (cfg.CLUSTER_RADIUS.mul cfg.CLUSTER_RADIUS)

/-- Parameters of the conical region of interest (server.py:32-36),
real-valued since the tolerance is `math.radians(...)`. -/
structure ConeConfig where
  radius : ℝ
  thetaC : ℝ
  phiC : ℝ
  tol : ℝ

/-- The cone test `is_within_cone` (server.py:38-48): inside the
cluster radius, nonzero, and within `tol` of the cone axis direction
(the dot product is clamped to `[-1, 1]` before `acos`). -/
noncomputable def isWithinCone (cc : ConeConfig) (p : Pt) : Prop :=

  let d := Real.sqrt (ptX p ^ 2 + ptY p ^ 2 + ptZ p ^ 2)

  let dx := Real.cos cc.phiC * Real.cos cc.thetaC

  let dy := Real.cos cc.phiC * Real.sin cc.thetaC

  let dz := Real.sin cc.phiC

  let dot := ptX p / d * dx + ptY p / d * dy + ptZ p / d * dz

  ¬ (d > cc.radius ∨ d = 0) ∧ Real.arccos (max (min dot 1) (-1)) < cc.tol

/-- The region-of-interest branch of `process_frame` (server.py:181-184).
The cone branch calls `is_within_cone`, a transcendental test in the
configuration parameters; since it is not computable it is passed in as
a Boolean oracle `cone` (theorems about the cone path hold for every
oracle, hence for `isWithinCone` in particular).  The sphere branch is
embedded exactly. -/
def regionTest (cfg : Config) (cone : Pt → Bool) (p : Pt) : Bool :=
  if cfg.USE_CONE_SHAPE then cone p else sphereInB cfg p

/-- Cluster-eligible points of `process_frame` (server.py:181-184): the
zero-filter survivors restricted to the region of interest. -/
def targetsOf (cfg : Config) (cone : Pt → Bool) (pts : List (ℕ × Pt)) : List (ℕ × Pt) :=
  (keptOf pts).filter (fun q => regionTest cfg cone q.2)

/-- DBSCAN labels of the cluster targets (server.py:188); `dbscan` is
the clustering oracle (`DBSCAN(...).fit(coords).labels_`, an external
library call): one integer label per target point, `-1` = noise. -/
def labelsOf (cfg : Config) (cone : Pt → Bool) (dbscan : List Pt → List ℤ)
    (pts : List (ℕ × Pt)) : List ℤ :=
  dbscan ((targetsOf cfg cone pts).map Prod.snd)

/-- Target points paired with their labels (the `zip` of server.py:190). -/
def labeledOf (cfg : Config) (cone : Pt → Bool) (dbscan : List Pt → List ℤ)
    (pts : List (ℕ × Pt)) : List ((ℕ × Pt) × ℤ) :=
  (targetsOf cfg cone pts).zip (labelsOf cfg cone dbscan pts)

/-- Noise points: label `-1` (`clusters.pop(-1, [])`, server.py:193). -/
def noisePtsOf (cfg : Config) (cone : Pt → Bool) (dbscan : List Pt → List ℤ)
    (pts : List (ℕ × Pt)) : List (ℕ × Pt) :=
  ((labeledOf cfg cone dbscan pts).filter (fun e => e.2 == (-1 : ℤ))).map Prod.fst

/-- Labelled points that are not noise. -/
def nonNoiseOf (cfg : Config) (cone : Pt → Bool) (dbscan : List Pt → List ℤ)
    (pts : List (ℕ × Pt)) : List ((ℕ × Pt) × ℤ) :=
  (labeledOf cfg cone dbscan pts).filter (fun e => e.2 != (-1 : ℤ))

/-- Distinct non-noise labels in first-occurrence order (the insertion
order of the `clusters` dict of server.py:189-191, with `-1` removed). -/
def labelOrderOf (cfg : Config) (cone : Pt → Bool) (dbscan : List Pt → List ℤ)
    (pts : List (ℕ × Pt)) : List ℤ :=
  ((nonNoiseOf cfg cone dbscan pts).map Prod.snd).foldl
    (fun acc x => if acc.contains x then acc else acc ++ [x]) []

/-- The raw clusters of a frame (server.py:192-198): one per non-noise
label, with its member points.  `centroidOf` abstracts the coordinate
mean of server.py:195-197: the source averages the real-valued
`x, y, z`, transcendental in the decoded angles, so the mean is an
oracle parameter; no claim depends on centroid values computed from
member points. -/
def rawClustersOf (cfg : Config) (cone : Pt → Bool) (dbscan : List Pt → List ℤ)
    (centroidOf : List (ℕ × Pt) → V3) (pts : List (ℕ × Pt)) : List RawCluster :=
  (labelOrderOf cfg cone dbscan pts).map (fun lbl =>
    let cpts := ((nonNoiseOf cfg cone dbscan pts).filter (fun e => e.2 == lbl)).map Prod.fst
    ({ pts := cpts, centroid := centroidOf cpts } : RawCluster))

/-- The frame processor `process_frame` (server.py:177-205).

Python object identity (`id(p)`, server.py:202-204) is modelled by the
identity tag each point carries (its index in the accumulated frame,
unique per frame).  Control flow mirrors the source: zero-filter, early
return on an empty result, region filter, early return on no cluster
targets, DBSCAN, grouping by label in first-occurrence order with noise
(`-1`) removed, tracking, then `stable + noise + unprocessed` (noise
points get `cluster_id = -1`; unprocessed points never get a
`cluster_id` key, modelled as `none`). -/
def processFrame (cfg : Config) (cone : Pt → Bool) (dbscan : List Pt → List ℤ)
    (centroidOf : List (ℕ × Pt) → V3) (trk : TrackerState) (pts : List (ℕ × Pt)) :
    List ((ℕ × Pt) × Option ℤ) × List (ℕ × Info) × List ℕ × TrackerState :=
  if keptOf pts = [] then ([], [], [], trk) else
  if targetsOf cfg cone pts = [] then ([], [], [], trk) else
  let out := assignStableIds cfg trk (rawClustersOf cfg cone dbscan centroidOf pts)
  let noise := noisePtsOf cfg cone dbscan pts
  let stableIdx := out.points.map (fun e => e.1.1)
  let noiseIdx := noise.map Prod.fst
  let unprocessed := ((keptOf pts).filter
      (fun q => !(stableIdx.contains q.1) && !(noiseIdx.contains q.1))).map
    (fun q => (q, (Option.none : Option ℤ)))
  (out.points ++ noise.map (fun q => (q, some (-1 : ℤ))) ++ unprocessed,
   out.clusterInfo, out.alerts, out.state)

/-- Assembler state of `FrameProtocol` (server.py:208-210):
`last_frame` and the accumulated points of the open frame.  Accumulated
points carry their identity tag (index in arrival order). -/
structure AsmState where
  lastFrame : Option ℕ
  accum : List (ℕ × Pt)
deriving Repr, DecidableEq

/-- The initial assembler state (server.py:208-210). -/
def initAsm : AsmState := ⟨Option.none, []⟩

/-- A broadcast event: the completed frame (`last_frame` and the
accumulated points handed to `process_frame`) together with the
processed message content (`points`, `clusters`, `alerts` of the JSON
document of server.py:221). -/
structure Emit where
  closedFrame : ℕ
  framePts : List (ℕ × Pt)
  outPoints : List ((ℕ × Pt) × Option ℤ)
  clusterInfo : List (ℕ × Info)
  alerts : List ℕ
deriving Repr, DecidableEq

/-- The datagram handler `FrameProtocol.datagram_received`
(server.py:212-229).

* `parse_compact` returning `None` (`.retNone`) hits `if not parsed:
  return` — no state change, no broadcast.
* A decode exception (`.fail`) escapes the handler before any state
  mutation; the step is modelled as a no-op without broadcast.
* Otherwise: `last_frame` is initialised to the incoming frame number if
  unset (lines 217-218); on a frame-number change the accumulated frame
  is processed and broadcast and the accumulator is reset to `[]` (the
  incoming points are discarded, line 226); otherwise the points are
  appended (line 229, tagged with fresh identity indices).

`some e` in the third component means the JSON message for `e` is sent
to every connected subscriber (lines 221-224); `none` means nothing is
broadcast. -/
def datagramReceived (cfg : Config) (cone : Pt → Bool) (dbscan : List Pt → List ℤ)
    (centroidOf : List (ℕ × Pt) → V3) (trk : TrackerState) (st : AsmState)
    (data : List ℕ) : AsmState × TrackerState × Option Emit :=
  match parseCompact data with
  | .ok fn pts =>
    let lf := st.lastFrame.getD fn
    if fn ≠ lf then
      let r := processFrame cfg cone dbscan centroidOf trk st.accum
      (⟨some fn, []⟩, r.2.2.2, some ⟨lf, st.accum, r.1, r.2.1, r.2.2.1⟩)
    else
      (⟨some fn, st.accum ++ List.enumFrom st.accum.length pts⟩, trk, Option.none)
  | _ => (st, trk, Option.none)

/-- Feed a list of datagrams through the handler, collecting the
broadcast of each step (oldest first). -/
def runDatagrams (cfg : Config) (cone : Pt → Bool) (dbscan : List Pt → List ℤ)
    (centroidOf : List (ℕ × Pt) → V3) :
    TrackerState → AsmState → List (List ℕ) → AsmState × TrackerState × List (Option Emit)
  | trk, st, [] => (st, trk, [])
  | trk, st, d :: ds =>
    let r := datagramReceived cfg cone dbscan centroidOf trk st d
    let rest := runDatagrams cfg cone dbscan centroidOf r.2.1 r.1 ds
    (rest.1, rest.2.1, r.2.2 :: rest.2.2)

/-- Build a module byte string for test packets: 8 reserved bytes, the
frame number (u64 little-endian), 4 reserved bytes, `num_layers`,
`num_beams`, `num_echos`, the per-layer timestamp block (`16*L` zero
bytes), zero `phi`/`theta_start`/`theta_stop` arrays, the scaling f32,
the `next_module` u32, a reserved byte, `data_echos = 1`
(16-bit distance echo), `data_beams = 0`, a reserved byte, then the
echo data. -/
def mkModule (frame L B E next : ℕ) (scalingBytes data : List ℕ) : List ℕ :=
  List.replicate 8 0 ++ u32le frame ++ u32le 0 ++ u32le 0 ++
  u32le L ++ u32le B ++ u32le E ++
  List.replicate (16 * L) 0 ++
  (List.replicate L f32zero).flatten ++
  (List.replicate L f32zero).flatten ++
  (List.replicate L f32zero).flatten ++
  scalingBytes ++ u32le next ++ [0, 1, 0, 0] ++ data

/-- Wrap one module in a compact packet: start marker `0x02020202`,
command id 1, 20 reserved bytes, the first-module size, the module. -/
def mkPacket (modBytes : List ℕ) : List ℕ :=
  [2, 2, 2, 2] ++ u32le 1 ++ List.replicate 20 0 ++ u32le modBytes.length ++ modBytes

/-- Frame 1, one layer, 10 beams, 1 echo, all `raw = 1000`,
`scaling = 1.0`, declared `next_module = 1000` (does not fit, so this is
not a last module: the loop simply terminates after it). -/
def pktD1 : List ℕ :=
  mkPacket (mkModule 1 1 10 1 1000 f32one ((List.replicate 10 (u16le 1000)).flatten))

/-- Frame 1, 5 beams of `raw = 1000`, `next_module = 0`: a last module. -/
def pktD2 : List ℕ :=
  mkPacket (mkModule 1 1 5 1 0 f32one ((List.replicate 5 (u16le 1000)).flatten))

/-- Frame 2, zero beams (no points), last module. -/
def pktD3 : List ℕ :=
  mkPacket (mkModule 2 1 0 1 0 f32one [])

/-- Frame 3, zero beams (no points), last module. -/
def pktD4 : List ℕ :=
  mkPacket (mkModule 3 1 0 1 0 f32one [])

/-- Frame 1, a single echo with `raw = 0`: decodes to the zero point. -/
def pktZero : List ℕ :=
  mkPacket (mkModule 1 1 1 1 0 f32one (u16le 0))

/-- Frame 1, a single echo `raw = 1000` with `scaling = -1.0`. -/
def pktNegScaling : List ℕ :=
  mkPacket (mkModule 1 1 1 1 0 f32negOne (u16le 1000))

/-- Scenario S1: single module, single layer/beam/echo, zero angles,
`scaling = 1.0`, `raw = 1000` (1 metre), last module. -/
def pktS1 : List ℕ :=
  mkPacket (mkModule 1 1 1 1 0 f32one (u16le 1000))

/-- Scenario S2: start-of-frame bytes `0x01020202` (big-endian value),
otherwise a valid-length packet. -/
def pktBadHeader : List ℕ :=
  [1, 2, 2, 2] ++ u32le 1 ++ List.replicate 24 0

/-- A packet whose header is valid but whose first module size is 1:
the one-byte module slice makes `struct.unpack_from('<III', m, 20)`
raise `struct.error` (server.py:144). -/
def pktShortModule : List ℕ :=
  [2, 2, 2, 2] ++ u32le 1 ++ List.replicate 20 0 ++ u32le 1 ++ [0]

/-- A packet whose first module parses completely (`next_module = 20`)
and whose second module slice (20 trailing zero bytes) is too short for
its header reads: the decoder parses one module, then raises. -/
def pktTwoModBad : List ℕ :=
  mkPacket (mkModule 1 1 0 1 20 f32one []) ++ List.replicate 20 0

/-- Frame number of a completed decode. -/
def resultFrame : ParseResult → Option ℕ
  | .ok f _ => some f
  | _ => Option.none

/-- Number of points of a completed decode. -/
def resultCount : ParseResult → Option ℕ
  | .ok _ pts => some pts.length
  | _ => Option.none

/-- Shorthand for fraction literals. -/
def fr (n : ℤ) (d : ℕ) : Frac := ⟨n, d⟩

/-- A single-point raw cluster at a given centroid (the member point is
a dummy; tracker decisions depend only on the centroid and the point
count). -/
def mkCl (c : V3) : RawCluster := ⟨[(0, ⟨0, 0, 0, 0⟩)], c⟩

/-- Test configuration: match distance 1 m, frame dt 1 s, 32 ids,
spherical region of radius 100 m. -/
def cfgT : Config := ⟨fr 1 1, fr 1 1, 32, false, fr 100 1⟩

/-- Scenario S4 configuration: `frame_dt_sec = 0.1`. -/
def cfgS4 : Config := ⟨fr 1 1, fr 1 10, 32, false, fr 100 1⟩

/-- Wraparound configuration: only `MAX_CLUSTER_ID = 2` ids. -/
def cfgWrap : Config := ⟨fr 1 1, fr 1 1, 2, false, fr 100 1⟩

/-- Narrow-sphere configuration: region radius 0.5 m. -/
def cfgNarrow : Config := ⟨fr 1 1, fr 1 1, 32, false, fr 1 2⟩

/-- Sphere configuration of radius 2 m. -/
def cfgR2 : Config := ⟨fr 1 1, fr 1 1, 32, false, fr 2 1⟩

/-- Trivial cone oracle (unused under `USE_CONE_SHAPE = false`). -/
def coneF : Pt → Bool := fun _ => false

/-- Degenerate clustering oracle labelling nothing (unused on early
returns). -/
def dbscanNone : List Pt → List ℤ := fun _ => []

/-- Clustering oracle labelling every point into cluster 0. -/
def dbscanAll : List Pt → List ℤ := fun l => l.map (fun _ => 0)

/-- Degenerate centroid oracle (unused on early returns). -/
def centZero : List (ℕ × Pt) → V3 := fun _ => v3zero

/-- The point decoded from `pktS1` (and `pktZero` with `raw = 0`):
`scaling = 1.0 = 2^150/2^150`, `phi = 0`, `theta = 0` (the azimuth
arithmetic of server.py:166 leaves the exact denominator `2^450`). -/
def ptS1val : Pt := ⟨1000, fr (2 ^ 150) (2 ^ 150), fr 0 (2 ^ 150), fr 0 (2 ^ 450)⟩

/-- The point decoded from `pktZero` (`raw = 0`). -/
def ptZeroVal : Pt := ⟨0, fr (2 ^ 150) (2 ^ 150), fr 0 (2 ^ 150), fr 0 (2 ^ 450)⟩

/-- The point decoded from `pktNegScaling` (`scaling = -1.0`). -/
def ptNegVal : Pt := ⟨1000, fr (-(2 ^ 150)) (2 ^ 150), fr 0 (2 ^ 150), fr 0 (2 ^ 450)⟩

/-- Tracker run exercising id reuse: frame 1 has one cluster at
`(10,0,0)`. -/
def reuseSt1 : TrackerState :=
  (assignStableIds cfgT initTracker [mkCl (fr 10 1, 0, 0)]).state

/-- Frame 2: one cluster at `(20,0,0)`, too far to match (distance 10,
bound 1), so it allocates id 1 and id 0 enters `reusable_ids`. -/
def reuseSt2 : TrackerState :=
  (assignStableIds cfgT reuseSt1 [mkCl (fr 20 1, 0, 0)]).state

/-- Frame 3: two clusters at `(30,0,0)` and `(40,0,0)`, both too far to
match the single live track at `(20,0,0)`. -/
def reuseOut3 : AsgOut :=
  assignStableIds cfgT reuseSt2 [mkCl (fr 30 1, 0, 0), mkCl (fr 40 1, 0, 0)]

/-- One-cluster frame followed by an empty frame (stale `prev_speeds`). -/
def staleOut1 : AsgOut := assignStableIds cfgT initTracker [mkCl (fr 5 1, 0, 0)]

/-- The empty follow-up frame of `staleOut1`. -/
def staleOut2 : AsgOut := assignStableIds cfgT staleOut1.state []

/-- Scenario S4, frame 1: single cluster at `(0, 0, 0.6)`. -/
def s4Out1 : AsgOut := assignStableIds cfgS4 initTracker [mkCl (0, 0, fr 3 5)]

/-- Scenario S4, frame 2: single cluster at `(0.1, 0, 0.6)`. -/
def s4Out2 : AsgOut := assignStableIds cfgS4 s4Out1.state [mkCl (fr 1 10, 0, fr 3 5)]

/-- Scenario S4, frame 3: single cluster at `(0.2, 0, 0.6)`. -/
def s4Out3 : AsgOut := assignStableIds cfgS4 s4Out2.state [mkCl (fr 1 5, 0, fr 3 5)]

/-- Wraparound run, frame A: two far-apart unmatched clusters (both
receive id 0 because the allocator does not reserve the id it hands
out). -/
def wrapOut1 : AsgOut :=
  assignStableIds cfgWrap initTracker [mkCl (0, 0, 0), mkCl (fr 10 1, 0, 0)]

/-- Wraparound run, frame B: one cluster matching id 0 and one new
cluster taking id 1; afterwards both ids of `[0, MAX_CLUSTER_ID)` are
live. -/
def wrapOut2 : AsgOut :=
  assignStableIds cfgWrap wrapOut1.state [mkCl (fr 10 1, 0, 0), mkCl (fr 20 1, 0, 0)]

/-- Wraparound run, frame C: a single cluster at `(40,0,0)` that matches
no previous track; the id table is full, so allocation falls through to
the `next_cluster_id` branch and recycles the live id 0. -/
def wrapOut3 : AsgOut :=
  assignStableIds cfgWrap wrapOut2.state [mkCl (fr 40 1, 0, 0)]

/-- Specification of one per-cluster record: if its assigned id carries
a previous centroid `pc`, the velocity is `(c - pc) / frame_dt` and
`moved` tests `dist(c, pc) > 0.1`; otherwise the velocity is zero and
`moved` is true (server.py:95-103). -/
def VelSpec (cfg : Config) (prev : List (ℕ × V3)) (e : ℕ × Info) : Prop :=
  (∀ pc, dictLookup prev e.1 = some pc →
    e.2.velocity = ((e.2.centroid.1.sub pc.1).div cfg.FRAME_TIME_GAP_SEC,
                    (e.2.centroid.2.1.sub pc.2.1).div cfg.FRAME_TIME_GAP_SEC,
                    (e.2.centroid.2.2.sub pc.2.2).div cfg.FRAME_TIME_GAP_SEC) ∧
    e.2.moved = Frac.ltB ⟨1, 100⟩ (sqDist e.2.centroid pc)) ∧
  (dictLookup prev e.1 = Option.none → e.2.velocity = v3zero ∧ e.2.moved = true)

/-- An in-region point (`d = 1`, inside radius 2). -/
def ptInVal : Pt := ⟨1000, 1, 0, 0⟩

/-- An out-of-region point (`d = 10`, outside radius 2). -/
def ptFarVal : Pt := ⟨1000, fr 10 1, 0, 0⟩

/-- The per-cluster record of scenario S4's second frame. -/
def s4e2 : ℕ × Info := s4Out2.perCluster.headD (0, ⟨v3zero, v3zero, false, 0⟩)

theorem Frac.toRat_ofNat (n : ℕ) : (OfNat.ofNat n : Frac).toRat = n := by
  show ((n : ℤ) : ℚ) / ((1 : ℕ) : ℚ) = n
  norm_num

theorem Frac.toRat_neg (a : Frac) : a.neg.toRat = -a.toRat := by
  simp [Frac.toRat, Frac.neg, neg_div]

theorem Frac.toRat_add (a b : Frac) (ha : a.den ≠ 0) (hb : b.den ≠ 0) :
    (a.add b).toRat = a.toRat + b.toRat := by
  have ha' : ((a.den : ℚ)) ≠ 0 := by exact_mod_cast ha
  have hb' : ((b.den : ℚ)) ≠ 0 := by exact_mod_cast hb
  unfold Frac.toRat Frac.add
  field_simp

theorem Frac.toRat_sub (a b : Frac) (ha : a.den ≠ 0) (hb : b.den ≠ 0) :
    (a.sub b).toRat = a.toRat - b.toRat := by
  have ha' : ((a.den : ℚ)) ≠ 0 := by exact_mod_cast ha
  have hb' : ((b.den : ℚ)) ≠ 0 := by exact_mod_cast hb
  unfold Frac.toRat Frac.sub
  field_simp
  ring

theorem Frac.toRat_mul (a b : Frac) :
    (a.mul b).toRat = a.toRat * b.toRat := by
  unfold Frac.toRat Frac.mul
  push_cast
  rw [div_mul_div_comm]

theorem Frac.toRat_div (a b : Frac) (hb : b.num ≠ 0) :
    (a.div b).toRat = a.toRat / b.toRat := by
  unfold Frac.toRat Frac.div
  rw [if_neg hb]
  have hbq : ((b.num : ℚ)) ≠ 0 := by exact_mod_cast hb
  by_cases hd : ((a.den : ℚ)) = 0
  · push_cast [hd]
    simp
  · rcases lt_trichotomy b.num 0 with h | h | h
    · have hs : b.num.sign = -1 := Int.sign_eq_neg_one_iff_neg.mpr h
      have habs : ((b.num.natAbs : ℚ)) = -(b.num : ℚ) := by
        rw [← Int.cast_natCast, Int.ofNat_natAbs_of_nonpos h.le, Int.cast_neg]
      rw [hs]
      push_cast
      rw [habs]
      field_simp
    · exact absurd h hb
    · have hs : b.num.sign = 1 := Int.sign_eq_one_iff_pos.mpr h
      have habs : ((b.num.natAbs : ℚ)) = (b.num : ℚ) := by
        rw [← Int.cast_natCast, Int.natAbs_of_nonneg h.le]
      rw [hs]
      push_cast
      rw [habs]
      field_simp

theorem Frac.leB_iff (a b : Frac) (ha : 0 < a.den) (hb : 0 < b.den) :
    a.leB b = true ↔ a.toRat ≤ b.toRat := by
  have ha' : (0 : ℚ) < (a.den : ℚ) := by exact_mod_cast ha
  have hb' : (0 : ℚ) < (b.den : ℚ) := by exact_mod_cast hb
  unfold Frac.leB Frac.toRat
  rw [div_le_div_iff₀ ha' hb', decide_eq_true_eq]
  constructor
  · intro h; exact_mod_cast h
  · intro h; exact_mod_cast h

theorem Frac.ltB_iff (a b : Frac) (ha : 0 < a.den) (hb : 0 < b.den) :
    a.ltB b = true ↔ a.toRat < b.toRat := by
  have ha' : (0 : ℚ) < (a.den : ℚ) := by exact_mod_cast ha
  have hb' : (0 : ℚ) < (b.den : ℚ) := by exact_mod_cast hb
  unfold Frac.ltB Frac.toRat
  rw [div_lt_div_iff₀ ha' hb', decide_eq_true_eq]
  constructor
  · intro h; exact_mod_cast h
  · intro h; exact_mod_cast h

theorem Frac.eqvB_iff (a b : Frac) (ha : 0 < a.den) (hb : 0 < b.den) :
    a.eqvB b = true ↔ a.toRat = b.toRat := by
  have ha' : ((a.den : ℚ)) ≠ 0 := by positivity
  have hb' : ((b.den : ℚ)) ≠ 0 := by positivity
  unfold Frac.eqvB Frac.toRat
  rw [div_eq_div_iff ha' hb', decide_eq_true_eq]
  constructor
  · intro h; exact_mod_cast h
  · intro h; exact_mod_cast h

example : (f32OfBits (leVal f32one)).toRat = 1 := by
  have : f32OfBits (leVal f32one) = ⟨2 ^ 150, 2 ^ 150⟩ := by decide
  rw [this]
  norm_num [Frac.toRat]

example : (f32OfBits (leVal f32negOne)).toRat = -1 := by
  have : f32OfBits (leVal f32negOne) = ⟨-2 ^ 150, 2 ^ 150⟩ := by decide
  rw [this]
  norm_num [Frac.toRat]

example : (f32OfBits (leVal f32zero)).toRat = 0 := by
  have : f32OfBits (leVal f32zero) = ⟨0, 2 ^ 150⟩ := by decide
  rw [this]
  norm_num [Frac.toRat]

/-- The decoded coordinates always satisfy the sphere identity
`x² + y² + z² = d²` exactly (in the real-number model of float
arithmetic; the spec states it up to relative tolerance 1e-5). -/
theorem pt_sphere_identity (p : Pt) :
    ptX p ^ 2 + ptY p ^ 2 + ptZ p ^ 2 = (((dval p).toRat : ℝ)) ^ 2 := by
  unfold ptX ptY ptZ
  have hθ : Real.cos ((p.theta.toRat : ℝ)) ^ 2 + Real.sin ((p.theta.toRat : ℝ)) ^ 2 = 1 :=
    Real.cos_sq_add_sin_sq _
  have hφ : Real.cos ((p.phi.toRat : ℝ)) ^ 2 + Real.sin ((p.phi.toRat : ℝ)) ^ 2 = 1 :=
    Real.cos_sq_add_sin_sq _
  set d : ℝ := (((dval p).toRat : ℝ))
  set cθ : ℝ := Real.cos ((p.theta.toRat : ℝ))
  set sθ : ℝ := Real.sin ((p.theta.toRat : ℝ))
  set cφ : ℝ := Real.cos ((p.phi.toRat : ℝ))
  set sφ : ℝ := Real.sin ((p.phi.toRat : ℝ))
  calc (d * cφ * cθ) ^ 2 + (d * cφ * sθ) ^ 2 + (d * sφ) ^ 2
      = d ^ 2 * ((cθ ^ 2 + sθ ^ 2) * cφ ^ 2 + sφ ^ 2) := by ring
    _ = d ^ 2 * (cφ ^ 2 + sφ ^ 2) := by rw [hθ, one_mul]
    _ = d ^ 2 := by rw [hφ, mul_one]

/-- The emitted point is the zero sentinel — the test
`p['x'] == 0 and p['y'] == 0 and p['z'] == 0` of server.py:178 — iff its
derived distance `d` is zero. -/
theorem pt_zero_iff (p : Pt) :
    (ptX p = 0 ∧ ptY p = 0 ∧ ptZ p = 0) ↔ (dval p).toRat = 0 := by
  constructor
  · rintro ⟨hx, hy, hz⟩
    have h := pt_sphere_identity p
    rw [hx, hy, hz] at h
    have h2 : ((((dval p).toRat : ℝ))) ^ 2 = 0 := by linarith
    have h3 : (((dval p).toRat : ℝ)) = 0 := pow_eq_zero_iff (n := 2) (by norm_num) |>.mp h2
    exact_mod_cast h3
  · intro h
    unfold ptX ptY ptZ
    rw [h]
    norm_num

/-- Definitional one-step unfolding of the fuelled module loop. -/
theorem parseLoopF_succ (fuel : ℕ) (buffer : List ℕ) (offset size : ℕ)
    (acc : List Pt) (fr : Option ℕ) :
    parseLoopF (fuel + 1) buffer offset size acc fr =
      if 0 < size ∧ offset + size ≤ buffer.length then
        match parseModule ((buffer.drop offset).take size) with
        | Option.none => .fail
        | some md =>
          parseLoopF fuel buffer (offset + size) md.nextModule (acc ++ md.pts) (some md.frame)
      else endResult fr acc := rfl

/-- The result of the fuelled module loop does not depend on the fuel
once the fuel exceeds the remaining buffer length, which certifies that
`parseCompact` (fuel `buffer.length + 1`, starting offset 32) computes
the limit of the source's unbounded `while` loop. -/
theorem parseLoopF_fuel_irrel (buffer : List ℕ) :
    ∀ f1 f2 offset size acc fr, buffer.length - offset < f1 →
      buffer.length - offset < f2 →
      parseLoopF f1 buffer offset size acc fr = parseLoopF f2 buffer offset size acc fr := by
  intro f1
  induction f1 with
  | zero => intro f2 offset size acc fr h1 h2; omega
  | succ f ih =>
    intro f2 offset size acc fr h1 h2
    match f2 with
    | 0 => omega
    | f2' + 1 =>
      show parseLoopF (f + 1) buffer offset size acc fr
          = parseLoopF (f2' + 1) buffer offset size acc fr
      unfold parseLoopF
      by_cases hc : 0 < size ∧ offset + size ≤ buffer.length
      · rw [if_pos hc, if_pos hc]
        match hm : parseModule ((buffer.drop offset).take size) with
        | Option.none => rfl
        | some md =>
          exact ih f2' (offset + size) md.nextModule (acc ++ md.pts) (some md.frame)
            (by omega) (by omega)
      · rw [if_neg hc, if_neg hc]

/-- A module slice long enough for all header, angle-array and metadata
reads (`43 + 28*num_layers ≤ len`) is parsed without raising, and its
declared next-module size is the u32 at offset `36 + 28*num_layers`. -/
theorem parseModule_spec (m : List ℕ) (h : 43 + 28 * u32At m 20 ≤ m.length) :
    ∃ md, parseModule m = some md ∧ md.nextModule = u32At m (32 + 28 * u32At m 20 + 4) := by
  have hok : moduleReadsOkB m = true := by
    simp only [moduleReadsOkB, Bool.and_eq_true, decide_eq_true_eq]
    omega
  unfold parseModule
  rw [hok]
  exact ⟨_, rfl, rfl⟩

/-- Once the loop has recorded a frame number, it can no longer return
`None` (only `fail` on a raising module, or a completed result). -/
theorem parseLoopF_some_not_retNone (buffer : List ℕ) :
    ∀ fuel offset size acc f,
      parseLoopF fuel buffer offset size acc (some f) ≠ .retNone := by
  intro fuel
  induction fuel with
  | zero => intro offset size acc f; simp [parseLoopF, endResult]
  | succ n ih =>
    intro offset size acc f
    unfold parseLoopF
    by_cases hc : 0 < size ∧ offset + size ≤ buffer.length
    · rw [if_pos hc]
      match parseModule ((buffer.drop offset).take size) with
      | Option.none => simp
      | some md => exact ih (offset + size) md.nextModule (acc ++ md.pts) md.frame
    · rw [if_neg hc]
      simp [endResult]

/-- Once the loop has recorded a frame number, the result is either a
raise or a completed `(frame, points)` result. -/
theorem parseLoopF_some_ok_or_fail (buffer : List ℕ) :
    ∀ fuel offset size acc f,
      parseLoopF fuel buffer offset size acc (some f) = .fail ∨
      ∃ fn pts, parseLoopF fuel buffer offset size acc (some f) = .ok fn pts := by
  intro fuel
  induction fuel with
  | zero => intro offset size acc f; right; exact ⟨f, acc, rfl⟩
  | succ n ih =>
    intro offset size acc f
    unfold parseLoopF
    by_cases hc : 0 < size ∧ offset + size ≤ buffer.length
    · rw [if_pos hc]
      match parseModule ((buffer.drop offset).take size) with
      | Option.none => left; rfl
      | some md => exact ih (offset + size) md.nextModule (acc ++ md.pts) md.frame
    · rw [if_neg hc]
      right; exact ⟨f, acc, rfl⟩

/-- If every module in the chain is well sized (`modChainOkB`), the
module loop never raises. -/
theorem parseLoopF_no_fail_of_chainOk (buffer : List ℕ) :
    ∀ fuel offset size acc fr,
      modChainOkB fuel buffer offset size = true →
      parseLoopF fuel buffer offset size acc fr ≠ .fail := by
  intro fuel
  induction fuel with
  | zero =>
    intro offset size acc fr _
    match fr with
    | some f => simp [parseLoopF, endResult]
    | Option.none => simp [parseLoopF, endResult]
  | succ n ih =>
    intro offset size acc fr hok
    unfold parseLoopF
    unfold modChainOkB at hok
    by_cases hc : 0 < size ∧ offset + size ≤ buffer.length
    · rw [if_pos hc]
      rw [if_pos hc] at hok
      simp only [Bool.and_eq_true, decide_eq_true_eq] at hok
      obtain ⟨hsz, hrest⟩ := hok
      have hmlen : ((buffer.drop offset).take size).length = size := by
        rw [List.length_take, List.length_drop]
        omega
      obtain ⟨md, hmd, hnext⟩ := parseModule_spec ((buffer.drop offset).take size) (by omega)
      rw [hmd]
      show parseLoopF n buffer (offset + size) md.nextModule (acc ++ md.pts) (some md.frame) ≠ .fail
      rw [hnext]
      exact ih (offset + size) _ (acc ++ md.pts) (some md.frame) hrest
    · rw [if_neg hc]
      match fr with
      | some f => simp [endResult]
      | Option.none => simp [endResult]

theorem dictKeys_dictInsert {α : Type} (d : List (ℕ × α)) (k : ℕ) (v : α) (c : ℕ) :
    c ∈ dictKeys (dictInsert d k v) ↔ c = k ∨ c ∈ dictKeys d := by
  unfold dictInsert
  by_cases h : d.any (fun e => e.1 == k)
  · rw [if_pos h]
    have hkeys : dictKeys (d.map (fun e => if e.1 == k then (k, v) else e)) = dictKeys d := by
      unfold dictKeys
      rw [List.map_map]
      apply List.map_congr_left
      intro e _
      by_cases he : e.1 = k
      · simp [he]
      · simp [he]
    rw [hkeys]
    have hk : k ∈ dictKeys d := by
      rw [List.any_eq_true] at h
      obtain ⟨e, he, heq⟩ := h
      rw [beq_iff_eq] at heq
      exact heq ▸ List.mem_map_of_mem Prod.fst he
    constructor
    · intro hc; exact Or.inr hc
    · rintro (rfl | hc)
      · exact hk
      · exact hc
  · rw [if_neg h]
    unfold dictKeys
    rw [List.map_append]
    simp [or_comm]

theorem setDiff_spec (a b : List ℕ) (c : ℕ) :
    c ∈ setDiff a b ↔ c ∈ a ∧ c ∉ b := by
  unfold setDiff
  rw [List.mem_filter]
  simp

theorem keys_nodup_uniq {α : Type} (l : List (ℕ × α)) (h : (l.map Prod.fst).Nodup)
    {i : ℕ} {p q : α} (hp : (i, p) ∈ l) (hq : (i, q) ∈ l) : p = q := by
  induction l with
  | nil => cases hp
  | cons hd tl ih =>
    rw [List.map_cons, List.nodup_cons] at h
    rcases List.mem_cons.mp hp with rfl | hp'
    · rcases List.mem_cons.mp hq with hq1 | hq'
      · exact congrArg Prod.snd hq1.symm
      · exact absurd (List.mem_map_of_mem Prod.fst hq') (by simpa using h.1)
    · rcases List.mem_cons.mp hq with rfl | hq'
      · exact absurd (List.mem_map_of_mem Prod.fst hp') (by simpa using h.1)
      · exact ih h.2 hp' hq'

/-- Every stable output point of the tracker is a member point of one of
the input clusters. -/
theorem assign_points_mem (cfg : Config) (st : TrackerState) (clusters : List RawCluster)
    (e : (ℕ × Pt) × Option ℤ) (he : e ∈ (assignStableIds cfg st clusters).points) :
    ∃ rc ∈ clusters, e.1 ∈ rc.pts := by
  unfold assignStableIds at he
  simp only at he
  rw [List.mem_flatMap] at he
  obtain ⟨rca, hrca, hmem⟩ := he
  rw [List.mem_map] at hmem
  obtain ⟨q, hq, rfl⟩ := hmem
  exact ⟨rca.1, (List.of_mem_zip hrca).1, hq⟩

/-- Every member point of a raw cluster is a cluster target. -/
theorem rawClusters_pts_mem (cfg : Config) (cone : Pt → Bool) (dbscan : List Pt → List ℤ)
    (centroidOf : List (ℕ × Pt) → V3) (pts : List (ℕ × Pt))
    (rc : RawCluster) (hrc : rc ∈ rawClustersOf cfg cone dbscan centroidOf pts)
    (q : ℕ × Pt) (hq : q ∈ rc.pts) : q ∈ targetsOf cfg cone pts := by
  unfold rawClustersOf at hrc
  rw [List.mem_map] at hrc
  obtain ⟨lbl, _, rfl⟩ := hrc
  simp only at hq
  rw [List.mem_map] at hq
  obtain ⟨le, hle, rfl⟩ := hq
  have h1 : le ∈ labeledOf cfg cone dbscan pts :=
    List.mem_of_mem_filter (List.mem_of_mem_filter hle)
  unfold labeledOf at h1
  exact (List.of_mem_zip h1).1

/-- Every noise point is a cluster target. -/
theorem noisePts_mem (cfg : Config) (cone : Pt → Bool) (dbscan : List Pt → List ℤ)
    (pts : List (ℕ × Pt)) (q : ℕ × Pt) (hq : q ∈ noisePtsOf cfg cone dbscan pts) :
    q ∈ targetsOf cfg cone pts := by
  unfold noisePtsOf at hq
  rw [List.mem_map] at hq
  obtain ⟨le, hle, rfl⟩ := hq
  have h1 : le ∈ labeledOf cfg cone dbscan pts := List.mem_of_mem_filter hle
  unfold labeledOf at h1
  exact (List.of_mem_zip h1).1

theorem stepCluster_velSpec (cfg : Config) (prev : List (ℕ × V3)) (reusable : List ℕ)
    (acc : AsgAcc) (rc : RawCluster)
    (h : ∀ e ∈ acc.perCluster, VelSpec cfg prev e) :
    ∀ e ∈ (stepCluster cfg prev reusable acc rc).perCluster, VelSpec cfg prev e := by
  intro e he
  unfold stepCluster at he
  simp only at he
  rw [List.mem_append] at he
  rcases he with he | he
  · exact h e he
  · rw [List.mem_singleton] at he
    subst he
    constructor
    · intro pc hpc
      simp only at hpc ⊢
      simp only [hpc]
      constructor <;> trivial
    · intro hnone
      simp only at hnone ⊢
      simp only [hnone]
      constructor <;> trivial

theorem foldl_velSpec (cfg : Config) (prev : List (ℕ × V3)) (reusable : List ℕ) :
    ∀ (clusters : List RawCluster) (acc : AsgAcc),
      (∀ e ∈ acc.perCluster, VelSpec cfg prev e) →
      ∀ e ∈ (clusters.foldl (stepCluster cfg prev reusable) acc).perCluster,
        VelSpec cfg prev e := by
  intro clusters
  induction clusters with
  | nil => intro acc h; simpa using h
  | cons rc tl ih =>
    intro acc h
    rw [List.foldl_cons]
    exact ih _ (stepCluster_velSpec cfg prev reusable acc rc h)

theorem stepCluster_keys (cfg : Config) (prev : List (ℕ × V3)) (reusable : List ℕ)
    (acc : AsgAcc) (rc : RawCluster)
    (h1 : ∀ c, c ∈ dictKeys acc.newCentroids ↔ c ∈ acc.assignments)
    (h2 : ∀ c ∈ acc.assignments, c ∈ dictKeys acc.speeds) :
    (∀ c, c ∈ dictKeys (stepCluster cfg prev reusable acc rc).newCentroids ↔
        c ∈ (stepCluster cfg prev reusable acc rc).assignments) ∧
    (∀ c ∈ (stepCluster cfg prev reusable acc rc).assignments,
        c ∈ dictKeys (stepCluster cfg prev reusable acc rc).speeds) := by
  unfold stepCluster
  simp only
  constructor
  · intro c
    rw [dictKeys_dictInsert, List.mem_append, List.mem_singleton, h1]
    tauto
  · intro c hc
    rw [List.mem_append, List.mem_singleton] at hc
    rw [dictKeys_dictInsert]
    rcases hc with hc | rfl
    · exact Or.inr (h2 c hc)
    · exact Or.inl rfl

theorem foldl_keys (cfg : Config) (prev : List (ℕ × V3)) (reusable : List ℕ) :
    ∀ (clusters : List RawCluster) (acc : AsgAcc),
      (∀ c, c ∈ dictKeys acc.newCentroids ↔ c ∈ acc.assignments) →
      (∀ c ∈ acc.assignments, c ∈ dictKeys acc.speeds) →
      (∀ c, c ∈ dictKeys (clusters.foldl (stepCluster cfg prev reusable) acc).newCentroids ↔
          c ∈ (clusters.foldl (stepCluster cfg prev reusable) acc).assignments) ∧
      (∀ c ∈ (clusters.foldl (stepCluster cfg prev reusable) acc).assignments,
          c ∈ dictKeys (clusters.foldl (stepCluster cfg prev reusable) acc).speeds) := by
  intro clusters
  induction clusters with
  | nil => intro acc h1 h2; exact ⟨h1, h2⟩
  | cons rc tl ih =>
    intro acc h1 h2
    rw [List.foldl_cons]
    obtain ⟨g1, g2⟩ := stepCluster_keys cfg prev reusable acc rc h1 h2
    exact ih _ g1 g2

/-- C6: a datagram whose header fails validation — length below 32,
big-endian u32 at `[0..4)` different from `0x02020202`, or little-endian
u32 at `[4..8)` different from 1 — makes the decoder return `None`, and
the handler leaves the assembler and tracker state unchanged without
broadcasting. -/
theorem C6_header_fail_returns_none (buffer : List ℕ)
    (h : buffer.length < 32 ∨ beValAt buffer 0 ≠ 0x02020202 ∨ u32At buffer 4 ≠ 1) :
    parseCompact buffer = .retNone ∧
    ∀ (cfg : Config) (cone : Pt → Bool) (dbscan : List Pt → List ℤ)
      (centroidOf : List (ℕ × Pt) → V3) (trk : TrackerState) (st : AsmState),
      datagramReceived cfg cone dbscan centroidOf trk st buffer = (st, trk, Option.none) := by
  have hh : headerOkB buffer = false := by
    cases hb : headerOkB buffer
    · rfl
    · exfalso
      have ht := hb
      simp only [headerOkB, Bool.and_eq_true, decide_eq_true_eq, beq_iff_eq] at ht
      obtain ⟨⟨h1, h2⟩, h3⟩ := ht
      rcases h with h | h | h
      · omega
      · exact h h2
      · exact h h3
  have hp : parseCompact buffer = .retNone := by
    unfold parseCompact
    rw [hh]
    rfl
  refine ⟨hp, ?_⟩
  intro cfg cone dbscan centroidOf trk st
  unfold datagramReceived
  rw [hp]

/-- Witness for C6 at scenario S2's packet (start-of-frame bytes
`0x01020202`). -/
theorem C6_witness :
    beValAt pktBadHeader 0 = 0x01020202 ∧
    parseCompact pktBadHeader = .retNone ∧
    datagramReceived cfgT coneF dbscanNone centZero initTracker initAsm pktBadHeader
      = (initAsm, initTracker, Option.none) :=
  ⟨by decide,
   (C6_header_fail_returns_none pktBadHeader (Or.inr (Or.inl (by decide)))).1,
   (C6_header_fail_returns_none pktBadHeader (Or.inr (Or.inl (by decide)))).2
     cfgT coneF dbscanNone centZero initTracker initAsm⟩

/-- C10 (amended): for a buffer passing header validation, the decoder
returns `None` iff the module loop is never entered, i.e. the first
declared module size is zero or the first module does not fit; and
whenever the loop is entered and no module read raises, the decoder
returns a frame number with the (possibly empty) point list.  (The
original claim omitted the raising case: a buffer whose first module
parses but whose second module slice is too short makes the decoder
raise instead of returning — see the counterexample.) -/
theorem C10_none_iff_no_module (buffer : List ℕ) (h : headerOkB buffer = true) :
    (parseCompact buffer = .retNone ↔
      (u32At buffer 28 = 0 ∨ buffer.length < 32 + u32At buffer 28)) ∧
    (parseCompact buffer ≠ .fail → u32At buffer 28 ≠ 0 →
      32 + u32At buffer 28 ≤ buffer.length →
      ∃ fn pts, parseCompact buffer = .ok fn pts) := by
  have hrw : parseCompact buffer
      = parseLoopF (buffer.length + 1) buffer 32 (u32At buffer 28) [] Option.none := by
    unfold parseCompact
    rw [h]
    rfl
  by_cases hc : 0 < u32At buffer 28 ∧ 32 + u32At buffer 28 ≤ buffer.length
  · have hstep : parseLoopF (buffer.length + 1) buffer 32 (u32At buffer 28) [] Option.none
        = match parseModule ((buffer.drop 32).take (u32At buffer 28)) with
          | Option.none => .fail
          | some md => parseLoopF buffer.length buffer (32 + u32At buffer 28)
              md.nextModule ([] ++ md.pts) (some md.frame) := by
      rw [parseLoopF_succ, if_pos hc]
    rw [hrw, hstep]
    cases hm : parseModule ((buffer.drop 32).take (u32At buffer 28)) with
    | none =>
      constructor
      · constructor
        · intro hfalse; cases hfalse
        · intro hfalse; omega
      · intro hnf; exact absurd rfl hnf
    | some md =>
      constructor
      · constructor
        · intro hnone
          exact absurd hnone (parseLoopF_some_not_retNone buffer _ _ _ _ _)
        · intro hfalse; omega
      · intro hnf _ _
        rcases parseLoopF_some_ok_or_fail buffer buffer.length (32 + u32At buffer 28)
            md.nextModule ([] ++ md.pts) md.frame with hfail | hok
        · exact absurd hfail hnf
        · exact hok
  · have hstep : parseLoopF (buffer.length + 1) buffer 32 (u32At buffer 28) [] Option.none
        = .retNone := by
      rw [parseLoopF_succ, if_neg hc]
      rfl
    rw [hrw, hstep]
    constructor
    · constructor
      · intro _; omega
      · intro _; rfl
    · intro _ h1 h2; omega

/-- Witness for C10 at a single-module packet. -/
theorem C10_witness : ∃ fn pts, parseCompact pktD3 = .ok fn pts :=
  (C10_none_iff_no_module pktD3 (by decide)).2 (by decide) (by decide) (by decide)

/-- Counterexample for C10 as stated: `pktTwoModBad` passes header
validation, its first module (size 72, which fits) parses completely,
yet the decoder neither returns `None` nor a frame — it raises on the
second module slice. -/
theorem C10_counterexample :
    headerOkB pktTwoModBad = true ∧
    u32At pktTwoModBad 28 = 72 ∧
    32 + u32At pktTwoModBad 28 ≤ pktTwoModBad.length ∧
    (parseModule ((pktTwoModBad.drop 32).take 72)).isSome = true ∧
    parseCompact pktTwoModBad = .fail := by decide

/-- C3 (amended): decoding never raises provided every module in the
chain is large enough for its header, angle-array and metadata reads
(`module_size ≥ 43 + 28*num_layers`); the per-echo data reads are
guarded in the source and skip out-of-range samples, and a module that
yields zero points is still valid.  (The original claim asserted
totality for every buffer; a well-formed header followed by a one-byte
module raises `struct.error` — see the counterexample.) -/
theorem C3_decode_no_raise (buffer : List ℕ)
    (h : modChainOkB (buffer.length + 1) buffer 32 (u32At buffer 28) = true) :
    parseCompact buffer ≠ .fail := by
  unfold parseCompact
  by_cases hh : headerOkB buffer
  · rw [if_pos hh]
    exact parseLoopF_no_fail_of_chainOk buffer (buffer.length + 1) 32 (u32At buffer 28)
      [] Option.none h
  · rw [if_neg hh]
    intro hfalse; cases hfalse

/-- Witness for C3: a zero-point module (`num_beams = 0`, `pktD3`) is
decoded without raising, and indeed yields an empty point list. -/
theorem C3_witness :
    parseCompact pktD3 ≠ .fail ∧ parseCompact pktD3 = .ok 2 [] :=
  ⟨C3_decode_no_raise pktD3 (by decide), by decide⟩

/-- Counterexample for C3 as stated: a valid header whose declared first
module size is 1 (the module slice fits in the buffer) makes
`struct.unpack_from('<III', m, 20)` raise — the exception escapes the
decoder. -/
theorem C3_counterexample :
    headerOkB pktShortModule = true ∧
    0 < u32At pktShortModule 28 ∧
    32 + u32At pktShortModule 28 ≤ pktShortModule.length ∧
    parseCompact pktShortModule = .fail := by decide

/-- Every decoded f32 fraction has denominator `2^150`. -/
theorem f32OfBits_den (b : ℕ) : (f32OfBits b).den = 2 ^ 150 := by
  simp only [f32OfBits, Frac.neg]
  split_ifs <;> rfl

/-- Every point emitted by one module iteration has positive
denominators (the decoded fractions are well formed). -/
theorem parseModule_pt_dens (m : List ℕ) (md : ModuleData)
    (h : parseModule m = some md) (p : Pt) (hp : p ∈ md.pts) :
    0 < p.scaling.den ∧ 0 < p.phi.den ∧ 0 < p.theta.den := by
  unfold parseModule at h
  by_cases hok : moduleReadsOkB m = true
  · rw [if_pos hok] at h
    rw [Option.some.injEq] at h
    subst h
    simp only at hp
    rw [List.mem_flatMap] at hp
    obtain ⟨b, -, hp⟩ := hp
    rw [List.mem_flatMap] at hp
    obtain ⟨l, -, hp⟩ := hp
    rw [List.mem_filterMap] at hp
    obtain ⟨ec, -, hp⟩ := hp
    rw [ite_eq_iff] at hp
    rcases hp with ⟨-, hp⟩ | ⟨-, hp⟩
    · cases hp
    · rw [Option.some.injEq] at hp
      subst hp
      refine ⟨?_, ?_, ?_⟩
      · dsimp only
        unfold f32At
        rw [f32OfBits_den]
        positivity
      · dsimp only
        unfold f32At
        rw [f32OfBits_den]
        positivity
      · dsimp only
        unfold f32At Frac.add Frac.mul Frac.sub Frac.div
        rw [if_neg (by
          simp only [Int.natCast_eq_zero]
          omega)]
        simp only [f32OfBits_den, Int.natAbs_ofNat]
        have hx : 0 < 1 ⊔ (u32At m 24 - 1) := lt_of_lt_of_le one_pos (le_max_left _ _)
        positivity
  · rw [if_neg hok] at h
    cases h

/-- A pointwise property of module points transfers to every point of a
completed decode. -/
theorem parseLoopF_pts_inv (buffer : List ℕ) (P : Pt → Prop)
    (hmod : ∀ m md p, parseModule m = some md → p ∈ md.pts → P p) :
    ∀ fuel offset size acc fr fn pts,
      (∀ q ∈ acc, P q) →
      parseLoopF fuel buffer offset size acc fr = .ok fn pts →
      ∀ p ∈ pts, P p := by
  intro fuel
  induction fuel with
  | zero =>
    intro offset size acc fr fn pts hacc h
    match fr with
    | some f =>
      rw [show parseLoopF 0 buffer offset size acc (some f) = .ok f acc from rfl] at h
      rw [ParseResult.ok.injEq] at h
      intro p hp
      exact hacc p (h.2 ▸ hp)
    | Option.none => cases h
  | succ n ih =>
    intro offset size acc fr fn pts hacc h
    rw [parseLoopF_succ] at h
    by_cases hc : 0 < size ∧ offset + size ≤ buffer.length
    · rw [if_pos hc] at h
      cases hm : parseModule ((buffer.drop offset).take size) with
      | none => rw [hm] at h; cases h
      | some md =>
        rw [hm] at h
        refine ih (offset + size) md.nextModule (acc ++ md.pts) (some md.frame) fn pts ?_ h
        intro q hq
        rcases List.mem_append.mp hq with hq | hq
        · exact hacc q hq
        · exact hmod _ md q hm hq
    · rw [if_neg hc] at h
      match fr with
      | some f =>
        rw [show endResult (some f) acc = .ok f acc from rfl] at h
        rw [ParseResult.ok.injEq] at h
        intro p hp
        exact hacc p (h.2 ▸ hp)
      | Option.none => cases h

/-- Every point of a completed decode has positive denominators, as
does its derived distance — so the exact-fraction comparisons of the
spatial filter are faithful on decoder output (`zero_test_faithful`,
`sphereInB_faithful`). -/
theorem parseCompact_pt_dens (buffer : List ℕ) (fn : ℕ) (pts : List Pt)
    (h : parseCompact buffer = .ok fn pts) (p : Pt) (hp : p ∈ pts) :
    0 < p.scaling.den ∧ 0 < p.phi.den ∧ 0 < p.theta.den ∧ 0 < (dval p).den := by
  have hmain : 0 < p.scaling.den ∧ 0 < p.phi.den ∧ 0 < p.theta.den := by
    unfold parseCompact at h
    by_cases hh : headerOkB buffer
    · rw [if_pos hh] at h
      exact parseLoopF_pts_inv buffer
        (fun q => 0 < q.scaling.den ∧ 0 < q.phi.den ∧ 0 < q.theta.den)
        (fun m md q hm hq => parseModule_pt_dens m md hm q hq)
        (buffer.length + 1) 32 (u32At buffer 28) [] Option.none fn pts
        (by intro q hq; cases hq) h p hp
    · rw [if_neg hh] at h
      cases h
  refine ⟨hmain.1, hmain.2.1, hmain.2.2, ?_⟩
  show 0 < ((Frac.mul ⟨(p.raw : ℤ), 1⟩ p.scaling).div ⟨1000, 1⟩).den
  unfold Frac.div Frac.mul
  rw [if_neg (show ¬((1000 : ℤ) = 0) by decide)]
  simp only
  have : (1000 : ℤ).natAbs = 1000 := by decide
  rw [this]
  have h1 := hmain.1
  positivity

/-- C7 (amended): for every point emitted by the decoder, the derived
distance `d = raw * scaling / 1000` is nonnegative whenever the module's
decoded scaling is nonnegative (`raw` is an unsigned 16-bit sample), and
the emitted coordinates satisfy `x² + y² + z² = d²` exactly in the
real-number model (hence within any positive relative tolerance).  (The
original claim asserted `d ≥ 0` unconditionally; a packet carrying a
negative scaling factor yields `d < 0` — see the counterexample.)
The positive-denominator conjunct states that the decoded fraction is
well formed, so its exact comparisons model the float comparisons. -/
theorem C7_point_geometry (buffer : List ℕ) (fn : ℕ) (pts : List Pt) (p : Pt)
    (hok : parseCompact buffer = .ok fn pts) (hp : p ∈ pts) :
    0 < (dval p).den ∧
    (0 ≤ p.scaling.toRat → 0 ≤ (dval p).toRat) ∧
    ptX p ^ 2 + ptY p ^ 2 + ptZ p ^ 2 = (((dval p).toRat : ℝ)) ^ 2 := by
  refine ⟨(parseCompact_pt_dens buffer fn pts hok p hp).2.2.2, ?_, pt_sphere_identity p⟩
  intro hs
  have hd : dval p = ⟨(p.raw : ℤ) * p.scaling.num * 1 * Int.sign 1000,
      1 * p.scaling.den * (1000 : ℤ).natAbs⟩ := by
    unfold dval Frac.div Frac.mul
    rw [if_neg (show ¬((1000 : ℤ) = 0) by decide)]
    rfl
  rw [hd]
  unfold Frac.toRat
  simp only
  rw [show Int.sign 1000 = 1 by decide, show (1000 : ℤ).natAbs = 1000 by decide]
  by_cases hden : p.scaling.den = 0
  · rw [hden]
    norm_num
  · have hdenpos : (0 : ℚ) < (p.scaling.den : ℚ) := by
      have : 0 < p.scaling.den := Nat.pos_of_ne_zero hden
      exact_mod_cast this
    have hnum : (0 : ℚ) ≤ (p.scaling.num : ℚ) := by
      by_contra hneg
      push_neg at hneg
      have : p.scaling.toRat < 0 := by
        unfold Frac.toRat
        exact div_neg_of_neg_of_pos hneg hdenpos
      linarith
    apply div_nonneg
    · push_cast
      have hraw : (0 : ℚ) ≤ (p.raw : ℚ) := by positivity
      nlinarith
    · push_cast
      positivity

/-- Witness for C7 at scenario S1's packet: the single decoded point has
`raw = 1000`, `scaling = 1.0`, so `d = 1 ≥ 0`, and the sphere identity
holds. -/
theorem C7_witness :
    parseCompact pktS1 = .ok 1 [ptS1val] ∧
    0 < (dval ptS1val).den ∧
    0 ≤ (dval ptS1val).toRat ∧
    ptX ptS1val ^ 2 + ptY ptS1val ^ 2 + ptZ ptS1val ^ 2 = (((dval ptS1val).toRat : ℝ)) ^ 2 :=
  ⟨by decide,
   (C7_point_geometry pktS1 1 [ptS1val] ptS1val (by decide) (by decide)).1,
   (C7_point_geometry pktS1 1 [ptS1val] ptS1val (by decide) (by decide)).2.1
     (by simp only [ptS1val, fr]; unfold Frac.toRat; positivity),
   (C7_point_geometry pktS1 1 [ptS1val] ptS1val (by decide) (by decide)).2.2⟩

/-- Counterexample for C7 as stated: the packet `pktNegScaling` carries
the f32 scaling `-1.0`, and its emitted point has
`d = 1000 * (-1) / 1000 = -1 < 0`. -/
theorem C7_counterexample :
    parseCompact pktNegScaling = .ok 1 [ptNegVal] ∧ (dval ptNegVal).toRat < 0 := by
  constructor
  · decide
  · rw [show dval ptNegVal = ⟨-(2 ^ 150) * 1000, 2 ^ 150 * 1000⟩ from by decide]
    unfold Frac.toRat
    apply div_neg_of_neg_of_pos
    · push_cast
      have hpos : (0 : ℚ) < 2 ^ 150 * 1000 := by positivity
      linarith
    · push_cast
      positivity

/-- C1 (amended): the handler broadcasts a completed frame exactly when
a successfully decoded module with a frame number different from the
open frame arrives; the completed frame is the open frame number with
the accumulated points (the incoming module's points are discarded at
the boundary).  The last-module flag (`next_module == 0`) plays no role
in emission.  In particular, for scenario S3's two same-frame modules
(10 and 5 nonzero points), nothing is emitted while they arrive; the
accumulated 15 points are emitted as one frame when a module of a
different frame number arrives.  (The original claim also triggered
emission on `last_module = true` — see the counterexample.) -/
theorem C1_emission_on_frame_change :
    (∀ (cfg : Config) (cone : Pt → Bool) (dbscan : List Pt → List ℤ)
       (centroidOf : List (ℕ × Pt) → V3) (trk : TrackerState) (st : AsmState) (data : List ℕ),
      ((datagramReceived cfg cone dbscan centroidOf trk st data).2.2 ≠ Option.none ↔
        ∃ fn pts f, parseCompact data = .ok fn pts ∧ st.lastFrame = some f ∧ fn ≠ f) ∧
      (∀ fn pts f, parseCompact data = .ok fn pts → st.lastFrame = some f → fn ≠ f →
        datagramReceived cfg cone dbscan centroidOf trk st data =
          (⟨some fn, []⟩, (processFrame cfg cone dbscan centroidOf trk st.accum).2.2.2,
           some ⟨f, st.accum, (processFrame cfg cone dbscan centroidOf trk st.accum).1,
                 (processFrame cfg cone dbscan centroidOf trk st.accum).2.1,
                 (processFrame cfg cone dbscan centroidOf trk st.accum).2.2.1⟩))) ∧
    ((runDatagrams cfgT coneF dbscanAll centZero initTracker initAsm
        [pktD1, pktD2, pktD3]).2.2.map
        (Option.map (fun em => (em.closedFrame, em.framePts.length)))
      = [Option.none, Option.none, some (1, 15)]) := by
  constructor
  · intro cfg cone dbscan centroidOf trk st data
    unfold datagramReceived
    cases hm : parseCompact data with
    | fail =>
      refine ⟨⟨fun hne => absurd rfl hne, ?_⟩, ?_⟩
      · rintro ⟨fn, pts, f, heq, -, -⟩; cases heq
      · intro fn pts f heq; cases heq
    | retNone =>
      refine ⟨⟨fun hne => absurd rfl hne, ?_⟩, ?_⟩
      · rintro ⟨fn, pts, f, heq, -, -⟩; cases heq
      · intro fn pts f heq; cases heq
    | ok fn0 pts0 =>
      cases hlf : st.lastFrame with
      | none =>
        simp only [Option.getD_some, Option.getD_none]
        rw [if_neg (by simp)]
        refine ⟨⟨fun hne => absurd rfl hne, ?_⟩, ?_⟩
        · rintro ⟨fn, pts, f, -, hsome, -⟩; cases hsome
        · intro fn pts f _ hsome; cases hsome
      | some f0 =>
        simp only [Option.getD_some]
        by_cases hff : fn0 = f0
        · rw [if_neg (by simpa using hff)]
          refine ⟨⟨fun hne => absurd rfl hne, ?_⟩, ?_⟩
          · rintro ⟨fn, pts, f, heq, hsome, hne⟩
            rw [ParseResult.ok.injEq] at heq
            rw [Option.some.injEq] at hsome
            exact (hne (heq.1 ▸ hsome ▸ hff)).elim
          · intro fn pts f heq hsome hne
            rw [ParseResult.ok.injEq] at heq
            rw [Option.some.injEq] at hsome
            exact (hne (heq.1 ▸ hsome ▸ hff)).elim
        · rw [if_pos (by simpa using hff)]
          refine ⟨⟨fun _ => ⟨fn0, pts0, f0, rfl, rfl, hff⟩, fun _ => by simp⟩, ?_⟩
          intro fn pts f heq hsome hne
          rw [ParseResult.ok.injEq] at heq
          rw [Option.some.injEq] at hsome
          rw [← heq.1, ← hsome]
  · decide

/-- Witness for C1: a decoded module of frame 2 arriving while frame 1
is open triggers a broadcast. -/
theorem C1_witness :
    (datagramReceived cfgT coneF dbscanAll centZero initTracker
      ⟨some 1, []⟩ pktD3).2.2 ≠ Option.none :=
  (C1_emission_on_frame_change.1 cfgT coneF dbscanAll centZero initTracker
    ⟨some 1, []⟩ pktD3).1.mpr ⟨2, [], 1, by decide, rfl, by decide⟩

/-- Counterexample for C1 as stated: `pktD2` decodes to a module of the
open frame 1 whose `next_module` field is 0 (`last_module = true`, 5
points), yet its arrival emits nothing — the handler only emits on a
frame-number change. -/
theorem C1_counterexample :
    firstModuleNextSize pktD2 = 0 ∧
    resultFrame (parseCompact pktD1) = some 1 ∧
    resultFrame (parseCompact pktD2) = some 1 ∧
    resultCount (parseCompact pktD1) = some 10 ∧
    resultCount (parseCompact pktD2) = some 5 ∧
    (runDatagrams cfgT coneF dbscanAll centZero initTracker initAsm [pktD1, pktD2]).2.2
      = [Option.none, Option.none] := by decide

/-- C4 (amended): when a frame completes with no points left after
filtering (the zero-drop leaves nothing, or the region filter leaves no
cluster target), the broadcast is NOT skipped: the handler still sends a
message, with empty `points`, `clusters` and `alerts`; no error is
raised and the tracker state is unchanged.  (The original claim said the
broadcast is skipped — see the counterexample.) -/
theorem C4_empty_frame_broadcasts (cfg : Config) (cone : Pt → Bool)
    (dbscan : List Pt → List ℤ) (centroidOf : List (ℕ × Pt) → V3)
    (trk : TrackerState) (st : AsmState) (data : List ℕ) (fn : ℕ) (pts : List Pt) (f : ℕ)
    (hparse : parseCompact data = .ok fn pts)
    (hlast : st.lastFrame = some f) (hneq : fn ≠ f)
    (hempty : keptOf st.accum = [] ∨ targetsOf cfg cone st.accum = []) :
    datagramReceived cfg cone dbscan centroidOf trk st data
      = (⟨some fn, []⟩, trk, some ⟨f, st.accum, [], [], []⟩) := by
  have hpf : processFrame cfg cone dbscan centroidOf trk st.accum = ([], [], [], trk) := by
    unfold processFrame
    rcases hempty with he | he
    · rw [if_pos he]
    · by_cases hk : keptOf st.accum = []
      · rw [if_pos hk]
      · rw [if_neg hk, if_pos he]
  unfold datagramReceived
  rw [hparse]
  simp only [hlast, Option.getD_some]
  rw [if_pos (by simpa using hneq), hpf]

/-- Witness for C4: frame 1 contains only the zero point; the arrival of
frame 2 broadcasts the empty message. -/
theorem C4_witness :
    datagramReceived cfgT coneF dbscanNone centZero initTracker
      ⟨some 1, [(0, ptZeroVal)]⟩ pktD3
      = (⟨some 2, []⟩, initTracker, some ⟨1, [(0, ptZeroVal)], [], [], []⟩) :=
  C4_empty_frame_broadcasts cfgT coneF dbscanNone centZero initTracker
    ⟨some 1, [(0, ptZeroVal)]⟩ pktD3 2 [] 1 (by decide) rfl (by decide)
    (Or.inl (by decide))

/-- Counterexample for C4 as stated: after `pktZero` (frame 1, one zero
point) the arrival of `pktD3` (frame 2) completes a frame with no points
after filtering, yet the handler broadcasts a message (`some ...`, sent
to every subscriber) instead of skipping the broadcast. -/
theorem C4_counterexample :
    keptOf [(0, ptZeroVal)] = [] ∧
    (runDatagrams cfgT coneF dbscanNone centZero initTracker initAsm
        [pktZero, pktD3]).2.2
      = [Option.none, some ⟨1, [(0, ptZeroVal)], [], [], []⟩] := by decide

/-- C9 (amended): in a frame where at least one point passes the region
test, every point that survives the zero-drop but is rejected by the
region-of-interest test appears in the frame's output with `cluster_id`
undefined (`none`, distinguishable from the noise sentinel `-1`).  The
hypothesis that some point passes the region test is necessary: when no
point at all passes, the source returns an empty frame and drops the
surviving points — see the counterexample.  (Identity tags of the frame
points are unique, as arranged by the accumulator.) -/
theorem C9_unprocessed_forwarded (cfg : Config) (cone : Pt → Bool)
    (dbscan : List Pt → List ℤ) (centroidOf : List (ℕ × Pt) → V3)
    (trk : TrackerState) (pts : List (ℕ × Pt)) (i : ℕ) (p : Pt)
    (hnodup : (pts.map Prod.fst).Nodup)
    (hmem : (i, p) ∈ pts)
    (hnz : Frac.eqvB (dval p) 0 = false)
    (hreg : regionTest cfg cone p = false)
    (htarget : ∃ q ∈ keptOf pts, regionTest cfg cone q.2 = true) :
    ((i, p), (Option.none : Option ℤ)) ∈
      (processFrame cfg cone dbscan centroidOf trk pts).1 := by
  have hkept : (i, p) ∈ keptOf pts := by
    apply List.mem_filter.mpr
    refine ⟨hmem, ?_⟩
    rw [hnz]
    rfl
  have hkne : keptOf pts ≠ [] := List.ne_nil_of_mem hkept
  have htne : targetsOf cfg cone pts ≠ [] := by
    obtain ⟨q, hqk, hqr⟩ := htarget
    exact List.ne_nil_of_mem (List.mem_filter.mpr ⟨hqk, hqr⟩)
  have keyTarget : ∀ q : ℕ × Pt, q ∈ targetsOf cfg cone pts → q.1 ≠ i := by
    intro q hq hqi
    have hpts : q ∈ pts := List.mem_of_mem_filter (List.mem_of_mem_filter hq)
    have hreg2 : regionTest cfg cone q.2 = true := (List.mem_filter.mp hq).2
    have hq2 : (i, q.2) ∈ pts := by
      rw [← hqi]
      exact hpts
    have heqp : q.2 = p := keys_nodup_uniq pts hnodup hq2 hmem
    rw [heqp] at hreg2
    rw [hreg2] at hreg
    cases hreg
  have hsc : ((assignStableIds cfg trk
      (rawClustersOf cfg cone dbscan centroidOf pts)).points.map
        (fun e => e.1.1)).contains i = false := by
    cases hb : ((assignStableIds cfg trk
        (rawClustersOf cfg cone dbscan centroidOf pts)).points.map
          (fun e => e.1.1)).contains i
    · rfl
    · exfalso
      have hi : i ∈ (assignStableIds cfg trk
          (rawClustersOf cfg cone dbscan centroidOf pts)).points.map
            (fun e => e.1.1) := by
        rw [← List.elem_iff]
        exact hb
      obtain ⟨e, he, hei⟩ := List.mem_map.mp hi
      obtain ⟨rc, hrc, hpt⟩ := assign_points_mem cfg trk _ e he
      exact keyTarget e.1 (rawClusters_pts_mem cfg cone dbscan centroidOf pts rc hrc e.1 hpt) hei
  have hnc : ((noisePtsOf cfg cone dbscan pts).map Prod.fst).contains i = false := by
    cases hb : ((noisePtsOf cfg cone dbscan pts).map Prod.fst).contains i
    · rfl
    · exfalso
      have hi : i ∈ (noisePtsOf cfg cone dbscan pts).map Prod.fst := by
        rw [← List.elem_iff]
        exact hb
      obtain ⟨q, hq, hqi⟩ := List.mem_map.mp hi
      exact keyTarget q (noisePts_mem cfg cone dbscan pts q hq) hqi
  unfold processFrame
  rw [if_neg hkne, if_neg htne]
  simp only
  apply List.mem_append.mpr
  right
  apply List.mem_map.mpr
  refine ⟨(i, p), ?_, rfl⟩
  apply List.mem_filter.mpr
  refine ⟨hkept, ?_⟩
  rw [hsc, hnc]
  rfl

/-- Witness for C9: with one in-region point and one out-of-region
point, the out-of-region point appears in the output with `cluster_id`
undefined. -/
theorem C9_witness :
    ((1, ptFarVal), (Option.none : Option ℤ)) ∈
      (processFrame cfgR2 coneF dbscanAll centZero initTracker
        [(0, ptInVal), (1, ptFarVal)]).1 :=
  C9_unprocessed_forwarded cfgR2 coneF dbscanAll centZero initTracker
    [(0, ptInVal), (1, ptFarVal)] 1 ptFarVal (by decide) (by decide) (by decide)
    (by decide) ⟨(0, ptInVal), by decide, by decide⟩

/-- Counterexample for C9 as stated: a frame whose only point survives
the zero-drop but fails the region test returns an empty output — the
point does not appear at all (the claim required it to appear even when
no point passes the region test). -/
theorem C9_counterexample :
    Frac.eqvB (dval ptFarVal) 0 = false ∧
    regionTest cfgNarrow coneF ptFarVal = false ∧
    processFrame cfgNarrow coneF dbscanAll centZero initTracker [(0, ptFarVal)]
      = ([], [], [], initTracker) := by decide

/-- C2 (code bug): `get_next_cluster_id` returns `min(reusable_ids)`
WITHOUT removing it from the set, so two clusters that both fail to
match within the same frame receive the SAME id.  Starting from the
initial tracker state: frame 1 tracks a cluster at `(10,0,0)` as id 0;
frame 2's cluster at `(20,0,0)` is out of match range (distance 10,
bound 1), takes id 1, and id 0 becomes reusable; in frame 3 two clusters
at `(30,0,0)` and `(40,0,0)` — both farther than the match bound from
the only live track — are BOTH assigned id 0 from the nonempty reuse
pool. -/
theorem C2_reusable_id_not_removed :
    reuseSt2.reusableIds = [0] ∧
    dictKeys reuseSt2.prevCentroids = [1] ∧
    Frac.leB (sqDist (fr 30 1, 0, 0) (fr 20 1, 0, 0))
      (cfgT.MAX_MATCH_DIST.mul cfgT.MAX_MATCH_DIST) = false ∧
    Frac.leB (sqDist (fr 40 1, 0, 0) (fr 20 1, 0, 0))
      (cfgT.MAX_MATCH_DIST.mul cfgT.MAX_MATCH_DIST) = false ∧
    reuseOut3.assignments = [0, 0] := by decide

/-- C5 (amended): after the tracker processes any frame,
`prev_centroids` holds exactly the ids assigned in that frame,
`reusable_ids` is exactly `ids_before - ids_now`, `prev_velocities`
contains an entry for every id assigned in that frame (but is never
pruned, so it may retain stale ids — see the counterexample), and
`reusable_ids` is disjoint from the live ids. -/
theorem C5_state_transition (cfg : Config) (st : TrackerState) (clusters : List RawCluster) :
    (∀ c, c ∈ dictKeys (assignStableIds cfg st clusters).state.prevCentroids ↔
        c ∈ (assignStableIds cfg st clusters).assignments) ∧
    ((assignStableIds cfg st clusters).state.reusableIds
      = setDiff (dictKeys st.prevCentroids)
          (dictKeys (assignStableIds cfg st clusters).state.prevCentroids)) ∧
    (∀ c ∈ (assignStableIds cfg st clusters).assignments,
        c ∈ dictKeys (assignStableIds cfg st clusters).state.prevSpeeds) ∧
    (∀ c ∈ (assignStableIds cfg st clusters).state.reusableIds,
        c ∉ dictKeys (assignStableIds cfg st clusters).state.prevCentroids) := by
  have h := foldl_keys cfg st.prevCentroids st.reusableIds clusters
    ⟨[], [], [], [], [], st.nextClusterId, st.prevSpeeds⟩
    (by intro c; simp [dictKeys]) (by intro c hc; cases hc)
  refine ⟨h.1, rfl, h.2, ?_⟩
  intro c hc
  exact ((setDiff_spec _ _ c).mp hc).2

/-- Witness for C5: the id assigned in a one-cluster frame is recorded
in `prev_velocities`. -/
theorem C5_witness :
    0 ∈ dictKeys (assignStableIds cfgT initTracker [mkCl (fr 5 1, 0, 0)]).state.prevSpeeds :=
  (C5_state_transition cfgT initTracker [mkCl (fr 5 1, 0, 0)]).2.2.1 0 (by decide)

/-- Counterexample for C5 as stated: after a one-cluster frame followed
by an empty frame, no id was assigned in the empty frame but
`prev_speeds` still holds the stale entry for id 0 — `prev_velocities`
does not mirror the new assignments. -/
theorem C5_counterexample :
    staleOut2.assignments = [] ∧
    dictKeys staleOut2.state.prevSpeeds = [0] := by decide

/-- C8 (amended): for every processed cluster, if the assigned id
carries a previous centroid `p` the reported velocity is
`(c - p) / frame_dt_sec` and `moved = (dist(c, p) > 0.1)`; if the
assigned id carries no previous centroid (always the case for ids
allocated from the reuse pool or the free-id scan; the wraparound branch
of a full id table can recycle a live id — see the counterexample) the
velocity is `(0,0,0)` and `moved = true`.  Scenario S4 holds: three
single-cluster frames at `(0,0,0.6)`, `(0.1,0,0.6)`, `(0.2,0,0.6)` with
`frame_dt_sec = 0.1` keep id 0 with velocities `(0,0,0)`, `(1,0,0)`,
`(1,0,0)`. -/
theorem C8_velocity_and_moved :
    (∀ (cfg : Config) (st : TrackerState) (clusters : List RawCluster),
      ∀ e ∈ (assignStableIds cfg st clusters).perCluster,
        VelSpec cfg st.prevCentroids e) ∧
    (s4Out1.assignments = [0] ∧ s4Out2.assignments = [0] ∧ s4Out3.assignments = [0] ∧
     s4Out1.perCluster.map (fun e => e.2.velocity) = [v3zero] ∧
     s4Out2.perCluster.map (fun e => (Frac.eqvB e.2.velocity.1 1,
       Frac.eqvB e.2.velocity.2.1 0, Frac.eqvB e.2.velocity.2.2 0)) = [(true, true, true)] ∧
     s4Out3.perCluster.map (fun e => (Frac.eqvB e.2.velocity.1 1,
       Frac.eqvB e.2.velocity.2.1 0, Frac.eqvB e.2.velocity.2.2 0)) = [(true, true, true)]) := by
  constructor
  · intro cfg st clusters e he
    exact foldl_velSpec cfg st.prevCentroids st.reusableIds clusters
      ⟨[], [], [], [], [], st.nextClusterId, st.prevSpeeds⟩
      (by intro x hx; cases hx) e he
  · decide

/-- Witness for C8 at scenario S4's second frame: the matched cluster's
velocity and `moved` flag follow the specification formulas relative to
its previous centroid `(0, 0, 0.6)`. -/
theorem C8_witness :
    s4e2.2.velocity
      = ((s4e2.2.centroid.1.sub ((0, 0, fr 3 5) : V3).1).div cfgS4.FRAME_TIME_GAP_SEC,
         (s4e2.2.centroid.2.1.sub ((0, 0, fr 3 5) : V3).2.1).div cfgS4.FRAME_TIME_GAP_SEC,
         (s4e2.2.centroid.2.2.sub ((0, 0, fr 3 5) : V3).2.2).div cfgS4.FRAME_TIME_GAP_SEC) ∧
    s4e2.2.moved = Frac.ltB ⟨1, 100⟩ (sqDist s4e2.2.centroid (0, 0, fr 3 5)) :=
  (C8_velocity_and_moved.1 cfgS4 s4Out1.state [mkCl (fr 1 10, 0, fr 3 5)] s4e2
    (by decide)).1 (0, 0, fr 3 5) (by decide)

/-- Counterexample for C8 as stated: with `MAX_CLUSTER_ID = 2` and both
ids live, a cluster at `(40,0,0)` that is farther than the match bound
from every previous centroid (so it matches no existing track and a new
track is created) is handed the recycled live id 0; its reported
velocity is `(30,0,0) ≠ (0,0,0)`. -/
theorem C8_counterexample :
    dictKeys wrapOut2.state.prevCentroids = [0, 1] ∧
    wrapOut2.state.reusableIds = [] ∧
    Frac.leB (sqDist (fr 40 1, 0, 0) (fr 10 1, 0, 0))
      (cfgWrap.MAX_MATCH_DIST.mul cfgWrap.MAX_MATCH_DIST) = false ∧
    Frac.leB (sqDist (fr 40 1, 0, 0) (fr 20 1, 0, 0))
      (cfgWrap.MAX_MATCH_DIST.mul cfgWrap.MAX_MATCH_DIST) = false ∧
    wrapOut3.perCluster.map (fun e => (e.1, e.2.velocity)) = [(0, (fr 30 1, 0, 0))] ∧
    Frac.eqvB (fr 30 1) 0 = false := by decide

/-- The zero-drop test of `keptOf` is faithful: for a point with a
well-formed denominator (every decoder output), `Frac.eqvB (dval p) 0`
holds iff the emitted coordinates are all zero — the exact test of
server.py:178. -/
theorem zero_test_faithful (p : Pt) (hd : 0 < (dval p).den) :
    (Frac.eqvB (dval p) 0 = true) ↔ (ptX p = 0 ∧ ptY p = 0 ∧ ptZ p = 0) := by
  rw [Frac.eqvB_iff (dval p) 0 hd (by decide), pt_zero_iff]
  have h0 : (0 : Frac).toRat = 0 := by
    rw [Frac.toRat_ofNat]
    norm_num
  rw [h0]

/-- The sphere test of `sphereInB` is faithful: for well-formed
denominators it holds iff `sqrt(x² + y² + z²) ≤ CLUSTER_RADIUS` — the
exact test of server.py:184. -/
theorem sphereInB_faithful (cfg : Config) (p : Pt)
    (hd : 0 < (dval p).den) (hR : 0 < cfg.CLUSTER_RADIUS.den) :
    sphereInB cfg p = true ↔
      Real.sqrt (ptX p ^ 2 + ptY p ^ 2 + ptZ p ^ 2) ≤ ((cfg.CLUSTER_RADIUS.toRat : ℝ)) := by
  unfold sphereInB
  rw [Bool.and_eq_true]
  rw [Frac.leB_iff 0 _ (by decide) hR]
  rw [Frac.leB_iff _ _ (by show 0 < (dval p).den * (dval p).den; exact Nat.mul_pos hd hd)
    (by show 0 < cfg.CLUSTER_RADIUS.den * cfg.CLUSTER_RADIUS.den; exact Nat.mul_pos hR hR)]
  rw [Frac.toRat_mul, Frac.toRat_mul]
  rw [pt_sphere_identity p, Real.sqrt_sq_eq_abs]
  have h0 : (0 : Frac).toRat = 0 := by
    rw [Frac.toRat_ofNat]
    norm_num
  rw [h0]
  constructor
  · rintro ⟨hR0, hsq⟩
    have hRr : (0 : ℝ) ≤ ((cfg.CLUSTER_RADIUS.toRat : ℝ)) := by exact_mod_cast hR0
    have hsqr : (((dval p).toRat : ℝ)) * (((dval p).toRat : ℝ))
        ≤ ((cfg.CLUSTER_RADIUS.toRat : ℝ)) * ((cfg.CLUSTER_RADIUS.toRat : ℝ)) := by
      exact_mod_cast hsq
    nlinarith [abs_mul_abs_self (((dval p).toRat : ℝ)), abs_nonneg (((dval p).toRat : ℝ))]
  · intro habs
    constructor
    · have hRr : (0 : ℝ) ≤ ((cfg.CLUSTER_RADIUS.toRat : ℝ)) :=
        le_trans (abs_nonneg _) habs
      exact_mod_cast hRr
    · have h2 : (((dval p).toRat : ℝ)) * (((dval p).toRat : ℝ))
          ≤ ((cfg.CLUSTER_RADIUS.toRat : ℝ)) * ((cfg.CLUSTER_RADIUS.toRat : ℝ)) := by
        nlinarith [abs_mul_abs_self (((dval p).toRat : ℝ)), abs_nonneg (((dval p).toRat : ℝ))]
      exact_mod_cast h2
